import Mathlib

/-!
tmpfile: anonymous temporary files with a named fallback

A shallow embedding of `tmpfile_linux.go` and `tmpfile_other.go`.

The package keeps one process-wide cell, `missingTMPFILE`, and otherwise only
sequences calls into the host: `os.TempDir`, `unix.Open`, `ioutil.TempFile`,
`unix.Syscall(SYS_FCNTL, ..)`, `os.Rename` and `unix.Linkat`.  The host is a
record of state-passing functions over an arbitrary state type, so every
answer the host can give is covered; each call that is made is appended to a
trace together with its arguments and its answer.
-/

namespace tmpfile

/-! ## Values -/

/-- A `syscall.Errno`. -/
abbrev Errno := Nat

def EISDIR : Errno := 21
def EOPNOTSUPP : Errno := 95
def ENOENT : Errno := 2
def EBADF : Errno := 9
def EACCES : Errno := 13
def EEXIST : Errno := 17

/-! Constants of `golang.org/x/sys/unix` (linux/amd64). -/

def O_RDWR : Nat := 0x2
def O_CLOEXEC : Nat := 0x80000
def O_TMPFILE : Nat := 0x410000
def AT_FDCWD : Int := -100
def AT_SYMLINK_FOLLOW : Nat := 0x400
def F_GETFL : Nat := 0x3
def SYS_FCNTL : Nat := 72

/-- Go `error` values that occur: a bare `syscall.Errno`, an `*os.PathError`
and an `*os.LinkError`. -/
inductive GoError where
  | errno (e : Errno)
  | PathError (Op Path : String) (Err : GoError)
  | LinkError (Op Old New : String) (Err : GoError)
  deriving DecidableEq, Repr

/-- An `*os.File` that is not nil: its descriptor (`Fd()`, a `uintptr`) and the
name it was created with (`Name()`). -/
structure File where
  fd : Nat
  name : String
  deriving DecidableEq, Repr

def File.Fd (f : File) : Nat := f.fd

def File.Name (f : File) : String := f.name

/-- Conversion `uint64(fd)` of a Go `int`. -/
def uint64 (fd : Int) : Nat := (fd % 2 ^ 64).toNat

/-- Conversion `uintptr(fd)` of a Go `int` (64 bit). -/
def uintptr (fd : Int) : Nat := (fd % 2 ^ 64).toNat

/-- Function `strconv.FormatUint(n, 10)`: the decimal digits of `n`. -/
def FormatUint (n : Nat) : String := Nat.repr n

/-- Function `os.NewFile(fd, name)`: nil when `int(fd)` is negative, otherwise a
file with that descriptor and that name. -/
def NewFile (fd : Nat) (name : String) : Option File :=
  if 2 ^ 63 ≤ fd % 2 ^ 64 then none else some ⟨fd % 2 ^ 64, name⟩

/-- The memo cell, an `atomics.Bool`. -/
structure AtomicBool where
  v : Bool
  deriving DecidableEq, Repr

/-- Method `Load` of the memo cell. -/
def AtomicBool.Load (b : AtomicBool) : Bool := b.v

/-- Method `Set` of the memo cell: it stores true. -/
def AtomicBool.Set (_b : AtomicBool) : AtomicBool := ⟨true⟩

/-! ## The host -/

/-- The calls the package makes into the operating system and the standard
library, each as a function of the host state that gives the Go results and the
next host state. -/
structure Host (σ : Type) where
  /-- Function `os.TempDir()`. -/
  TempDir : σ → String
  /-- Function `unix.Open(path, mode, perm) (fd int, err error)`. -/
  Open : String → Nat → Nat → σ → (Int × Option Errno) × σ
  /-- Function `ioutil.TempFile(dir, pattern) (f *os.File, err error)`. -/
  ioutilTempFile : String → String → σ → (Option File × Option GoError) × σ
  /-- Function `unix.Syscall(trap, a1, a2, a3) (r1, r2 uintptr, err Errno)`. -/
  Syscall : Nat → Nat → Nat → Nat → σ → (Nat × Nat × Errno) × σ
  /-- Function `os.Rename(oldpath, newpath) error`. -/
  Rename : String → String → σ → Option GoError × σ
  /-- Function `unix.Linkat(olddirfd, oldpath, newdirfd, newpath, flags) error`. -/
  Linkat : Int → String → Int → String → Nat → σ → Option Errno × σ

/-- One call into the host, with its arguments and what it answered. -/
inductive Event where
  | Open (path : String) (mode perm : Nat) (fd : Int) (err : Option Errno)
  | ioutilTempFile (dir pattern : String) (f : Option File) (err : Option GoError)
  | Syscall (trap a1 a2 a3 : Nat) (r1 r2 : Nat) (err : Errno)
  | Rename (oldpath newpath : String) (err : Option GoError)
  | Linkat (olddirfd : Int) (oldpath : String) (newdirfd : Int) (newpath : String)
      (flags : Nat) (err : Option Errno)
  deriving DecidableEq, Repr

/-- The process: the package variable `missingTMPFILE`, the host state, and the
host calls made so far, oldest first. -/
structure Proc (σ : Type) where
  missingTMPFILE : AtomicBool
  host : σ
  trace : List Event

/-- A process at start: `missingTMPFILE` has the zero value and no call was made. -/
def Proc.start {σ : Type} (s : σ) : Proc σ := ⟨⟨false⟩, s, []⟩

section calls

variable {σ : Type}

def callOpen (h : Host σ) (path : String) (mode perm : Nat) (p : Proc σ) :
    (Int × Option Errno) × Proc σ :=
  let r := h.Open path mode perm p.host
  (r.1, { p with host := r.2, trace := p.trace ++ [Event.Open path mode perm r.1.1 r.1.2] })

def callTempFile (h : Host σ) (dir pattern : String) (p : Proc σ) :
    (Option File × Option GoError) × Proc σ :=
  let r := h.ioutilTempFile dir pattern p.host
  (r.1, { p with host := r.2,
                 trace := p.trace ++ [Event.ioutilTempFile dir pattern r.1.1 r.1.2] })

def callSyscall (h : Host σ) (trap a1 a2 a3 : Nat) (p : Proc σ) :
    (Nat × Nat × Errno) × Proc σ :=
  let r := h.Syscall trap a1 a2 a3 p.host
  (r.1, { p with host := r.2,
                 trace := p.trace ++ [Event.Syscall trap a1 a2 a3 r.1.1 r.1.2.1 r.1.2.2] })

def callRename (h : Host σ) (oldpath newpath : String) (p : Proc σ) :
    Option GoError × Proc σ :=
  let r := h.Rename oldpath newpath p.host
  (r.1, { p with host := r.2, trace := p.trace ++ [Event.Rename oldpath newpath r.1] })

def callLinkat (h : Host σ) (olddirfd : Int) (oldpath : String) (newdirfd : Int)
    (newpath : String) (flags : Nat) (p : Proc σ) : Option Errno × Proc σ :=
  let r := h.Linkat olddirfd oldpath newdirfd newpath flags p.host
  (r.1, { p with host := r.2,
                 trace := p.trace ++
                   [Event.Linkat olddirfd oldpath newdirfd newpath flags r.1] })

end calls

/-- The three results of `TempFile`: `(f *os.File, remove bool, err error)`. -/
structure Result where
  f : Option File
  remove : Bool
  err : Option GoError
  deriving DecidableEq, Repr

/-! ## tmpfile_linux.go -/

namespace linux

variable {σ : Type}

/-- The two lines `f, err := ioutil.TempFile(dir, "")` and
`return f, err == nil, err`. -/
def fallback (h : Host σ) (dir : String) (p : Proc σ) : Result × Proc σ :=
  let r := callTempFile h dir "" p
  (⟨r.1.1, r.1.2.isNone, r.1.2⟩, r.2)

/-- Function `TempFile` of tmpfile_linux.go. -/
def TempFile (h : Host σ) (dir : String) (p : Proc σ) : Result × Proc σ :=
  let dir := if dir = "" then h.TempDir p.host else dir
  if p.missingTMPFILE.Load then
    fallback h dir p
  else
    let r := callOpen h dir (O_RDWR ||| O_TMPFILE ||| O_CLOEXEC) 0o600 p
    match r.1.2 with
    | none =>
      let path := "/proc/self/fd/" ++ FormatUint (uint64 r.1.1)
      (⟨NewFile (uintptr r.1.1) path, false, none⟩, r.2)
    | some err =>
      if err = EISDIR then
        fallback h dir { r.2 with missingTMPFILE := r.2.missingTMPFILE.Set }
      else if err = EOPNOTSUPP then
        fallback h dir r.2
      else
        (⟨none, false, some (GoError.PathError "open" dir (GoError.errno err))⟩, r.2)

/-- Function `Link` of tmpfile_linux.go. -/
def Link (h : Host σ) (f : File) (newpath : String) (p : Proc σ) :
    Option GoError × Proc σ :=
  if p.missingTMPFILE.Load then
    callRename h f.Name newpath p
  else
    let r := callSyscall h SYS_FCNTL f.Fd F_GETFL 0 p
    if r.1.2.2 ≠ 0 then
      (some (GoError.LinkError "link" f.Name newpath (GoError.errno r.1.2.2)), r.2)
    else if (r.1.1 &&& O_TMPFILE) ≠ O_TMPFILE then
      callRename h f.Name newpath r.2
    else
      let l := callLinkat h AT_FDCWD f.Name AT_FDCWD newpath AT_SYMLINK_FOLLOW r.2
      match l.1 with
      | some err => (some (GoError.LinkError "link" f.Name newpath (GoError.errno err)), l.2)
      | none => (none, l.2)

end linux

/-! ## tmpfile_other.go -/

namespace other

variable {σ : Type}

/-- Function `TempFile` of tmpfile_other.go. -/
def TempFile (h : Host σ) (dir : String) (p : Proc σ) : Result × Proc σ :=
  let r := callTempFile h dir "" p
  (⟨r.1.1, r.1.2.isNone, r.1.2⟩, r.2)

/-- Function `Link` of tmpfile_other.go. -/
def Link (h : Host σ) (f : File) (newpath : String) (p : Proc σ) :
    Option GoError × Proc σ :=
  callRename h f.Name newpath p

end other

/-! ## A scripted host

A host whose state is the list of answers it will still give: each call takes
the answer at the head when it is of the right kind and fails otherwise.  Its
`ioutil.TempFile` gives either a file or an error, as the library does. -/

/-- One canned answer of the scripted host. -/
inductive Reply where
  | Open (fd : Int) (err : Option Errno)
  | ioutilTempFile (r : Except GoError File)
  | Syscall (r1 r2 : Nat) (err : Errno)
  | Rename (err : Option GoError)
  | Linkat (err : Option Errno)

/-- The scripted host. -/
def scripted : Host (List Reply) where
  TempDir := fun _ => "/tmp"
  Open := fun _ _ _ s =>
    match s with
    | Reply.Open fd err :: rest => ((fd, err), rest)
    | _ => ((-1, some ENOENT), s.tail)
  ioutilTempFile := fun dir _ s =>
    match s with
    | Reply.ioutilTempFile (Except.ok f) :: rest => ((some f, none), rest)
    | Reply.ioutilTempFile (Except.error err) :: rest => ((none, some err), rest)
    | _ => ((none, some (GoError.PathError "open" dir (GoError.errno ENOENT))), s.tail)
  Syscall := fun _ _ _ _ s =>
    match s with
    | Reply.Syscall r1 r2 err :: rest => ((r1, r2, err), rest)
    | _ => ((2 ^ 64 - 1, 0, EBADF), s.tail)
  Rename := fun oldpath newpath s =>
    match s with
    | Reply.Rename err :: rest => (err, rest)
    | _ => (some (GoError.LinkError "rename" oldpath newpath (GoError.errno ENOENT)), s.tail)
  Linkat := fun _ _ _ _ _ s =>
    match s with
    | Reply.Linkat err :: rest => (err, rest)
    | _ => (some ENOENT, s.tail)

/-! ## Sequences of calls -/

/-- One call of the package (Linux variant). -/
inductive Call where
  | TempFile (dir : String)
  | Link (f : File) (newpath : String)
  deriving DecidableEq, Repr

/-- A process together with the results that `TempFile` has returned so far,
oldest first. -/
structure Session (σ : Type) where
  proc : Proc σ
  returned : List Result

/-- A session at process start. -/
def Session.start {σ : Type} (s : σ) : Session σ := ⟨Proc.start s, []⟩

/-- Perform one call. -/
def exec {σ : Type} (h : Host σ) (c : Call) (s : Session σ) : Session σ :=
  match c with
  | Call.TempFile dir =>
    let r := linux.TempFile h dir s.proc
    ⟨r.2, s.returned ++ [r.1]⟩
  | Call.Link f newpath => ⟨(linux.Link h f newpath s.proc).2, s.returned⟩

/-- Perform the calls one after the other. -/
def run {σ : Type} (h : Host σ) (cs : List Call) (s : Session σ) : Session σ :=
  cs.foldl (fun s c => exec h c s) s

/-- A result is an anonymous handle: a file, no error, and nothing to remove. -/
def Result.anonymous (r : Result) : Bool :=
  r.f.isSome && r.err.isNone && !r.remove

/-- The event is a call of `os.Rename`. -/
def Event.isRename : Event → Bool
  | Event.Rename _ _ _ => true
  | _ => false

/-- The event is a call of `unix.Linkat`. -/
def Event.isLinkat : Event → Bool
  | Event.Linkat _ _ _ _ _ _ => true
  | _ => false

/-- The event is an anonymous open that succeeded. -/
def Event.openOk : Event → Bool
  | Event.Open _ _ _ _ none => true
  | _ => false

/-- The event is an open that failed with EISDIR. -/
def Event.openEISDIR : Event → Bool
  | Event.Open _ _ _ _ (some e) => decide (e = EISDIR)
  | _ => false

/-- In the trace no open that failed with EISDIR comes after an open that
succeeded: EISDIR from this open means the kernel has no O_TMPFILE at all. -/
def NoOpenThenEISDIR (t : List Event) : Prop :=
  t.Pairwise (fun a b => ¬ (a.openOk = true ∧ b.openEISDIR = true))

/-- What a session keeps true: every anonymous result was made by an open that
succeeded and is in the trace; and when the memo is set while an anonymous
result was returned, the trace has an EISDIR after a successful open. -/
def SessionInv {σ : Type} (s : Session σ) : Prop :=
  (∀ r ∈ s.returned, r.anonymous = true → ∃ e ∈ s.proc.trace, e.openOk = true) ∧
  (s.proc.missingTMPFILE.Load = true → (∃ r ∈ s.returned, r.anonymous = true) →
    ¬ NoOpenThenEISDIR s.proc.trace)

/-- The host calls made between process state `p` and the later state `q`. -/
def added {σ : Type} (p q : Proc σ) : List Event := q.trace.drop p.trace.length

/-- The directory `TempFile` works in: `os.TempDir()` for the empty string. -/
def resolve {σ : Type} (h : Host σ) (dir : String) (s : σ) : String :=
  if dir = "" then h.TempDir s else dir

/-- The mode of the anonymous open. -/
def anonMode : Nat := O_RDWR ||| O_TMPFILE ||| O_CLOEXEC

/-- The contract of `ioutil.TempFile`: with an error comes a nil file. -/
def IoutilContract {σ : Type} (h : Host σ) : Prop :=
  ∀ dir pattern s, (h.ioutilTempFile dir pattern s).1.2 ≠ none →
    (h.ioutilTempFile dir pattern s).1.1 = none

/-- Every creation primitive that `TempFile dir` can reach from host state `s`
fails: the anonymous open, and `ioutil.TempFile` before and after it. -/
def CreationFails {σ : Type} (h : Host σ) (dir : String) (s : σ) : Prop :=
  (h.ioutilTempFile dir "" s).1.2 ≠ none ∧
  (h.ioutilTempFile (resolve h dir s) "" s).1.2 ≠ none ∧
  (h.Open (resolve h dir s) anonMode 0o600 s).1.2 ≠ none ∧
  (h.ioutilTempFile (resolve h dir s) ""
    (h.Open (resolve h dir s) anonMode 0o600 s).2).1.2 ≠ none

/-! ## A reference filesystem

A small model of the host for the claims that speak of what is on disk:
directories, directory entries of regular files, inodes with their content, and
open descriptors.  Paths are taken as written. -/

def EMFILE : Errno := 24
def ENOSYS : Errno := 38

/-- Flag that the kernel adds to every open on a 64-bit system. -/
def O_LARGEFILE : Nat := 0x8000

/-- The state of the reference filesystem. -/
structure FS where
  /-- What `os.TempDir()` gives. -/
  tmpdir : String
  /-- The kernel knows O_TMPFILE. -/
  kernelTMPFILE : Bool
  /-- The directories that exist, each with whether its filesystem has O_TMPFILE. -/
  dirs : List (String × Bool)
  /-- The content of each inode. -/
  inodes : List (Nat × List UInt8)
  /-- The directory entries of regular files: path and inode. -/
  entries : List (String × Nat)
  /-- The open descriptors: descriptor, inode and status flags. -/
  fds : List (Nat × Nat × Nat)
  nextIno : Nat
  nextFd : Nat
  nextName : Nat

/-- The directory part of a path: what is before the last slash. -/
def dirOf (path : String) : String :=
  let d := String.mk ((path.toList.reverse.dropWhile (fun c => c != '/')).drop 1).reverse
  if d = "" then "/" else d

/-- The name of descriptor `fd` under /proc. -/
def procName (fd : Nat) : String := "/proc/self/fd/" ++ Nat.repr fd

/-- Open of a directory with O_TMPFILE: ENOENT for a missing directory, EISDIR
from a kernel that does not know the flag (it sees a directory opened for
writing), EOPNOTSUPP when the filesystem has no support, otherwise a new
descriptor on a new inode that has no directory entry. -/
def FS.Open (path : String) (mode _perm : Nat) (fs : FS) : (Int × Option Errno) × FS :=
  match fs.dirs.lookup path with
  | none => ((-1, some ENOENT), fs)
  | some supported =>
    if fs.kernelTMPFILE = false ∨ mode &&& O_TMPFILE ≠ O_TMPFILE then
      ((-1, some EISDIR), fs)
    else if supported = false then ((-1, some EOPNOTSUPP), fs)
    else if 2 ^ 20 ≤ fs.nextFd then ((-1, some EMFILE), fs)
    else
      (((fs.nextFd : Int), none),
        { fs with
          inodes := (fs.nextIno, []) :: fs.inodes
          fds := (fs.nextFd, fs.nextIno,
            (mode ^^^ (mode &&& O_CLOEXEC)) ||| O_LARGEFILE) :: fs.fds
          nextIno := fs.nextIno + 1
          nextFd := fs.nextFd + 1 })

/-- Function `ioutil.TempFile`: a new regular file with a generated name in the
directory, open for reading and writing; an error with a nil file when the
directory is missing, the name is taken or no descriptor is free. -/
def FS.ioutilTempFile (dir pattern : String) (fs : FS) :
    (Option File × Option GoError) × FS :=
  let d := if dir = "" then fs.tmpdir else dir
  let name := d ++ "/" ++ pattern ++ Nat.repr fs.nextName
  match fs.dirs.lookup d with
  | none => ((none, some (GoError.PathError "open" name (GoError.errno ENOENT))), fs)
  | some _ =>
    if (fs.entries.lookup name).isSome then
      ((none, some (GoError.PathError "open" name (GoError.errno EEXIST))),
        { fs with nextName := fs.nextName + 1 })
    else if 2 ^ 20 ≤ fs.nextFd then
      ((none, some (GoError.PathError "open" name (GoError.errno EMFILE))), fs)
    else
      ((some ⟨fs.nextFd, name⟩, none),
        { fs with
          inodes := (fs.nextIno, []) :: fs.inodes
          entries := (name, fs.nextIno) :: fs.entries
          fds := (fs.nextFd, fs.nextIno, O_RDWR ||| O_LARGEFILE) :: fs.fds
          nextIno := fs.nextIno + 1
          nextFd := fs.nextFd + 1
          nextName := fs.nextName + 1 })

/-- System call fcntl F_GETFL: the status flags of an open descriptor, EBADF
otherwise. -/
def FS.Syscall (trap a1 a2 _a3 : Nat) (fs : FS) : (Nat × Nat × Errno) × FS :=
  if trap = SYS_FCNTL ∧ a2 = F_GETFL then
    match fs.fds.lookup a1 with
    | some d => ((d.2, 0, 0), fs)
    | none => ((2 ^ 64 - 1, 0, EBADF), fs)
  else ((2 ^ 64 - 1, 0, ENOSYS), fs)

/-- Function `os.Rename`: moves the directory entry `oldpath` to `newpath`,
replacing an entry that is there; nothing is done when both name the same
file. -/
def FS.Rename (oldpath newpath : String) (fs : FS) : Option GoError × FS :=
  match fs.entries.lookup oldpath with
  | none => (some (GoError.LinkError "rename" oldpath newpath (GoError.errno ENOENT)), fs)
  | some ino =>
    if (fs.dirs.lookup (dirOf newpath)).isNone then
      (some (GoError.LinkError "rename" oldpath newpath (GoError.errno ENOENT)), fs)
    else if (fs.dirs.lookup newpath).isSome then
      (some (GoError.LinkError "rename" oldpath newpath (GoError.errno EISDIR)), fs)
    else if fs.entries.lookup newpath = some ino then (none, fs)
    else
      (none, { fs with
        entries := (newpath, ino) ::
          fs.entries.filter (fun e => e.1 != oldpath && e.1 != newpath) })

/-- The inode that `linkat` links: with AT_SYMLINK_FOLLOW the name of an open
descriptor under /proc leads to that descriptor's inode; any other name is
looked up among the directory entries. -/
def FS.source (oldpath : String) (flags : Nat) (fs : FS) : Option Nat :=
  match fs.fds.find? (fun d => procName d.1 == oldpath) with
  | some d => if flags &&& AT_SYMLINK_FOLLOW = AT_SYMLINK_FOLLOW then some d.2.1 else none
  | none => fs.entries.lookup oldpath

/-- Function `unix.Linkat` with both directory descriptors AT_FDCWD: a new
directory entry `newpath` for the source inode; EEXIST when `newpath` is
there. -/
def FS.Linkat (olddirfd : Int) (oldpath : String) (newdirfd : Int) (newpath : String)
    (flags : Nat) (fs : FS) : Option Errno × FS :=
  if olddirfd ≠ AT_FDCWD ∨ newdirfd ≠ AT_FDCWD then (some EBADF, fs)
  else
    match fs.source oldpath flags with
    | none => (some ENOENT, fs)
    | some ino =>
      if (fs.dirs.lookup (dirOf newpath)).isNone then (some ENOENT, fs)
      else if (fs.entries.lookup newpath).isSome ∨ (fs.dirs.lookup newpath).isSome then
        (some EEXIST, fs)
      else (none, { fs with entries := (newpath, ino) :: fs.entries })

/-- The reference filesystem as a host. -/
def sim : Host FS where
  TempDir := fun fs => fs.tmpdir
  Open := FS.Open
  ioutilTempFile := FS.ioutilTempFile
  Syscall := FS.Syscall
  Rename := FS.Rename
  Linkat := FS.Linkat

/-- A write of `b` through descriptor `fd` by the caller: the bytes are added
at the end of the inode's content. -/
def FS.write (fd : Nat) (b : List UInt8) (fs : FS) : Option FS :=
  match fs.fds.lookup fd with
  | none => none
  | some d =>
    some { fs with
      inodes := fs.inodes.map (fun e => if e.1 = d.1 then (e.1, e.2 ++ b) else e) }

/-- The content of the file at `path`, as `ioutil.ReadFile` gives it. -/
def FS.readFile (path : String) (fs : FS) : Option (List UInt8) :=
  (fs.entries.lookup path).bind (fun ino => fs.inodes.lookup ino)

/-- A filesystem with /tmp and /srv/data, both with O_TMPFILE, on a kernel that
has it. -/
def FS.sample : FS :=
  { tmpdir := "/tmp", kernelTMPFILE := true,
    dirs := [("/tmp", true), ("/srv/data", true)],
    inodes := [], entries := [], fds := [], nextIno := 100, nextFd := 3, nextName := 42 }

/-- The two build variants of the package. -/
inductive Platform where
  | linux
  | other
  deriving DecidableEq, Repr

/-- Function `TempFile` of the variant. -/
def Platform.TempFile {σ : Type} (v : Platform) (h : Host σ) (dir : String) (p : Proc σ) :
    Result × Proc σ :=
  match v with
  | Platform.linux => linux.TempFile h dir p
  | Platform.other => other.TempFile h dir p

/-- Function `Link` of the variant. -/
def Platform.Link {σ : Type} (v : Platform) (h : Host σ) (f : File) (newpath : String)
    (p : Proc σ) : Option GoError × Proc σ :=
  match v with
  | Platform.linux => linux.Link h f newpath p
  | Platform.other => other.Link h f newpath p

/-- The example of the package: `TempFile(dir)`, a write of `b` to the handle,
`Link(f, path)`, then a read of `path`.  None when a step fails. -/
def roundTrip (v : Platform) (dir : String) (b : List UInt8) (path : String)
    (p : Proc FS) : Option (List UInt8) :=
  let t := v.TempFile sim dir p
  match t.1.f, t.1.err with
  | some f, none =>
    match FS.write f.Fd b t.2.host with
    | none => none
    | some fs =>
      let l := v.Link sim f path { t.2 with host := fs }
      match l.1 with
      | some _ => none
      | none => FS.readFile path l.2.host
  | _, _ => none

/-! ## Helper lemmas -/

section helpers
variable {σ : Type}

theorem fallback_fst (h : Host σ) (dir : String) (p : Proc σ) :
    (linux.fallback h dir p).1 =
      ⟨(h.ioutilTempFile dir "" p.host).1.1, (h.ioutilTempFile dir "" p.host).1.2.isNone,
        (h.ioutilTempFile dir "" p.host).1.2⟩ := rfl

theorem fallback_snd (h : Host σ) (dir : String) (p : Proc σ) :
    (linux.fallback h dir p).2 =
      ⟨p.missingTMPFILE, (h.ioutilTempFile dir "" p.host).2,
        p.trace ++ [Event.ioutilTempFile dir ""
          (h.ioutilTempFile dir "" p.host).1.1 (h.ioutilTempFile dir "" p.host).1.2]⟩ := rfl

theorem TempFile_memo_set (h : Host σ) (dir : String) (p : Proc σ)
    (hm : p.missingTMPFILE.Load = true) :
    linux.TempFile h dir p = linux.fallback h (resolve h dir p.host) p := by
  simp [linux.TempFile, hm, resolve]

theorem scripted_contract : IoutilContract scripted := by
  intro dir pattern s
  unfold scripted
  rcases s with _ | ⟨r, rest⟩
  · simp
  · rcases r with _ | ⟨_ | _⟩ | _ | _ | _ <;> simp

end helpers

/-! ## Single calls -/

section single
variable {σ : Type}

/-- C1: on both platform variants, with `ioutil.TempFile` keeping its contract,
a `TempFile` that returns an error returns a nil file and `remove = false`; and
where every creation primitive fails the result is nil, false and an error. -/
theorem TempFile_error_nil_false (h : Host σ) (hc : IoutilContract h) (dir : String)
    (p : Proc σ) :
    ((linux.TempFile h dir p).1.err ≠ none →
      (linux.TempFile h dir p).1.f = none ∧ (linux.TempFile h dir p).1.remove = false) ∧
    ((other.TempFile h dir p).1.err ≠ none →
      (other.TempFile h dir p).1.f = none ∧ (other.TempFile h dir p).1.remove = false) ∧
    (CreationFails h dir p.host →
      ((linux.TempFile h dir p).1.f = none ∧ (linux.TempFile h dir p).1.remove = false ∧
        (linux.TempFile h dir p).1.err ≠ none) ∧
      ((other.TempFile h dir p).1.f = none ∧ (other.TempFile h dir p).1.remove = false ∧
        (other.TempFile h dir p).1.err ≠ none)) := by
  have key : ∀ (d : String) (q : Proc σ), (linux.fallback h d q).1.err ≠ none →
      (linux.fallback h d q).1.f = none ∧ (linux.fallback h d q).1.remove = false := by
    intro d q hq
    rw [fallback_fst] at hq ⊢
    simp only [ne_eq] at hq
    refine ⟨hc d "" q.host hq, ?_⟩
    cases hx : (h.ioutilTempFile d "" q.host).1.2 with
    | none => exact absurd hx hq
    | some e => simp [hx]
  have lin : (linux.TempFile h dir p).1.err ≠ none →
      (linux.TempFile h dir p).1.f = none ∧ (linux.TempFile h dir p).1.remove = false := by
    unfold linux.TempFile
    by_cases hm : p.missingTMPFILE.Load = true
    · simp only [hm, if_true]
      exact key _ _
    · simp only [hm]
      simp only [Bool.false_eq_true, if_false]
      cases ho : (callOpen h (if dir = "" then h.TempDir p.host else dir)
          (O_RDWR ||| O_TMPFILE ||| O_CLOEXEC) 0o600 p).1.2 with
      | none => simp
      | some e =>
        simp only
        by_cases h1 : e = EISDIR
        · simp only [h1, if_true]; exact key _ _
        · by_cases h2 : e = EOPNOTSUPP
          · simp only [h1, h2, if_true, if_false]; exact key _ _
          · simp [h1, h2]
  have oth : (other.TempFile h dir p).1.err ≠ none →
      (other.TempFile h dir p).1.f = none ∧ (other.TempFile h dir p).1.remove = false :=
    key dir p
  refine ⟨lin, oth, ?_⟩
  rintro ⟨f1, f2, f3, f4⟩
  have e2 : (other.TempFile h dir p).1.err ≠ none := f1
  have e1 : (linux.TempFile h dir p).1.err ≠ none := by
    unfold linux.TempFile
    by_cases hm : p.missingTMPFILE.Load = true
    · simp only [hm, if_true]
      exact f2
    · simp only [hm]
      simp only [Bool.false_eq_true, if_false]
      cases ho : (callOpen h (if dir = "" then h.TempDir p.host else dir)
          (O_RDWR ||| O_TMPFILE ||| O_CLOEXEC) 0o600 p).1.2 with
      | none => exact absurd ho f3
      | some e =>
        simp only
        by_cases h1 : e = EISDIR
        · simp only [h1, if_true]; exact f4
        · by_cases h2 : e = EOPNOTSUPP
          · simp only [h1, h2, if_true, if_false]; exact f4
          · simp [h1, h2]
  exact ⟨⟨(lin e1).1, (lin e1).2, e1⟩, ⟨(oth e2).1, (oth e2).2, e2⟩⟩

end single

theorem TempFile_error_nil_false_witness :
    IoutilContract scripted ∧
    CreationFails scripted "/_not_exists_" (Proc.start ([] : List Reply)).host ∧
    ((linux.TempFile scripted "/_not_exists_" (Proc.start [])).1.f = none ∧
      (linux.TempFile scripted "/_not_exists_" (Proc.start [])).1.remove = false ∧
      (linux.TempFile scripted "/_not_exists_" (Proc.start [])).1.err ≠ none) ∧
    ((other.TempFile scripted "/_not_exists_" (Proc.start [])).1.f = none ∧
      (other.TempFile scripted "/_not_exists_" (Proc.start [])).1.remove = false ∧
      (other.TempFile scripted "/_not_exists_" (Proc.start [])).1.err ≠ none) :=
  ⟨scripted_contract, by unfold CreationFails; decide,
    (TempFile_error_nil_false scripted scripted_contract "/_not_exists_" (Proc.start [])).2.2
      (by unfold CreationFails; decide)⟩

section single
variable {σ : Type}

/-- C2 (as amended): with the memo unset, an anonymous open that fails with
EISDIR sets the memo and one that fails with EOPNOTSUPP leaves it unset; either
way `ioutil.TempFile` is called exactly once, after the open, its file and error
are returned, and `remove` is true exactly when it gave no error. -/
theorem TempFile_unsupported_fallback (h : Host σ) (dir : String) (p : Proc σ)
    (hm : p.missingTMPFILE.Load = false) (e : Errno)
    (ho : (h.Open (resolve h dir p.host) anonMode 0o600 p.host).1.2 = some e)
    (he : e = EISDIR ∨ e = EOPNOTSUPP) :
    (linux.TempFile h dir p).1 =
      ⟨(h.ioutilTempFile (resolve h dir p.host) ""
          (h.Open (resolve h dir p.host) anonMode 0o600 p.host).2).1.1,
        (h.ioutilTempFile (resolve h dir p.host) ""
          (h.Open (resolve h dir p.host) anonMode 0o600 p.host).2).1.2.isNone,
        (h.ioutilTempFile (resolve h dir p.host) ""
          (h.Open (resolve h dir p.host) anonMode 0o600 p.host).2).1.2⟩ ∧
    (linux.TempFile h dir p).2.trace =
      p.trace ++
        [Event.Open (resolve h dir p.host) anonMode 0o600
          (h.Open (resolve h dir p.host) anonMode 0o600 p.host).1.1 (some e),
         Event.ioutilTempFile (resolve h dir p.host) ""
          (h.ioutilTempFile (resolve h dir p.host) ""
            (h.Open (resolve h dir p.host) anonMode 0o600 p.host).2).1.1
          (h.ioutilTempFile (resolve h dir p.host) ""
            (h.Open (resolve h dir p.host) anonMode 0o600 p.host).2).1.2] ∧
    (linux.TempFile h dir p).2.host =
      (h.ioutilTempFile (resolve h dir p.host) ""
        (h.Open (resolve h dir p.host) anonMode 0o600 p.host).2).2 ∧
    (linux.TempFile h dir p).2.missingTMPFILE.Load = decide (e = EISDIR) := by
  simp only [resolve, anonMode] at ho
  have hv : p.missingTMPFILE.v = false := hm
  rcases he with he | he
  · subst he
    simp [linux.TempFile, hv, callOpen, resolve, anonMode, ho, fallback_fst, fallback_snd,
      AtomicBool.Set, AtomicBool.Load]
  · subst he
    have hne : EOPNOTSUPP ≠ EISDIR := by decide
    simp [linux.TempFile, hv, callOpen, resolve, anonMode, ho, fallback_fst, fallback_snd,
      hne, AtomicBool.Load]

end single

/-- C2 fails as stated: after an open that fails with EOPNOTSUPP the memo is
still unset, and after one that fails with EISDIR a failing fallback gives
`remove = false`. -/
theorem TempFile_unsupported_counterexample :
    ((linux.TempFile scripted "/tmp"
        (Proc.start [Reply.Open (-1) (some EOPNOTSUPP),
          Reply.ioutilTempFile (Except.ok ⟨3, "/tmp/042"⟩)])).1 =
        ⟨some ⟨3, "/tmp/042"⟩, true, none⟩ ∧
      (linux.TempFile scripted "/tmp"
        (Proc.start [Reply.Open (-1) (some EOPNOTSUPP),
          Reply.ioutilTempFile (Except.ok ⟨3, "/tmp/042"⟩)])).2.missingTMPFILE.Load = false) ∧
    ((linux.TempFile scripted "/tmp"
        (Proc.start [Reply.Open (-1) (some EISDIR),
          Reply.ioutilTempFile (Except.error (GoError.errno EACCES))])).1 =
        ⟨none, false, some (GoError.errno EACCES)⟩ ∧
      (linux.TempFile scripted "/tmp"
        (Proc.start [Reply.Open (-1) (some EISDIR),
          Reply.ioutilTempFile (Except.error (GoError.errno EACCES))])).2.missingTMPFILE.Load
        = true) := by
  decide

theorem TempFile_unsupported_fallback_witness :
    (linux.TempFile scripted "/tmp"
        (Proc.start [Reply.Open (-1) (some EISDIR),
          Reply.ioutilTempFile (Except.ok ⟨3, "/tmp/042"⟩)])).1 =
        ⟨some ⟨3, "/tmp/042"⟩, true, none⟩ ∧
    (linux.TempFile scripted "/tmp"
        (Proc.start [Reply.Open (-1) (some EISDIR),
          Reply.ioutilTempFile (Except.ok ⟨3, "/tmp/042"⟩)])).2.missingTMPFILE.Load = true := by
  have w := TempFile_unsupported_fallback scripted "/tmp"
    (Proc.start [Reply.Open (-1) (some EISDIR),
      Reply.ioutilTempFile (Except.ok ⟨3, "/tmp/042"⟩)]) (by decide) EISDIR (by decide)
    (Or.inl rfl)
  exact ⟨w.1.trans (by decide), w.2.2.2.trans (by decide)⟩

section single
variable {σ : Type}

/-- C3 (as amended): with the memo set, `TempFile` makes no anonymous open; its
only host call is one `ioutil.TempFile` in the directory (`os.TempDir()` for the
empty string), whose file and error it returns; `remove` is true exactly when
that call gave no error, and the memo stays set. -/
theorem TempFile_memo_set_fallback (h : Host σ) (dir : String) (p : Proc σ)
    (hm : p.missingTMPFILE.Load = true) :
    (linux.TempFile h dir p).1 =
      ⟨(h.ioutilTempFile (resolve h dir p.host) "" p.host).1.1,
        (h.ioutilTempFile (resolve h dir p.host) "" p.host).1.2.isNone,
        (h.ioutilTempFile (resolve h dir p.host) "" p.host).1.2⟩ ∧
    (linux.TempFile h dir p).2.trace =
      p.trace ++ [Event.ioutilTempFile (resolve h dir p.host) ""
        (h.ioutilTempFile (resolve h dir p.host) "" p.host).1.1
        (h.ioutilTempFile (resolve h dir p.host) "" p.host).1.2] ∧
    (linux.TempFile h dir p).2.host =
      (h.ioutilTempFile (resolve h dir p.host) "" p.host).2 ∧
    (linux.TempFile h dir p).2.missingTMPFILE.Load = true ∧
    ((linux.TempFile h dir p).1.remove = true ↔ (linux.TempFile h dir p).1.err = none) := by
  rw [TempFile_memo_set h dir p hm, fallback_fst, fallback_snd]
  refine ⟨rfl, rfl, rfl, hm, ?_⟩
  simp [Option.isNone_iff_eq_none]

end single

/-- C3 fails as stated: with the memo set and a fallback that fails, `TempFile`
returns `remove = false`. -/
theorem TempFile_memo_set_counterexample :
    (linux.TempFile scripted "/_not_exists_"
      ⟨⟨true⟩, [Reply.ioutilTempFile (Except.error
        (GoError.PathError "open" "/_not_exists_/042" (GoError.errno ENOENT)))], []⟩).1 =
      ⟨none, false,
        some (GoError.PathError "open" "/_not_exists_/042" (GoError.errno ENOENT))⟩ := by
  decide

theorem TempFile_memo_set_fallback_witness :
    (linux.TempFile scripted ""
      ⟨⟨true⟩, [Reply.ioutilTempFile (Except.ok ⟨3, "/tmp/042"⟩)], []⟩).1 =
      ⟨some ⟨3, "/tmp/042"⟩, true, none⟩ ∧
    (linux.TempFile scripted ""
      ⟨⟨true⟩, [Reply.ioutilTempFile (Except.ok ⟨3, "/tmp/042"⟩)], []⟩).2.trace =
      [Event.ioutilTempFile "/tmp" "" (some ⟨3, "/tmp/042"⟩) none] := by
  have w := TempFile_memo_set_fallback scripted ""
    ⟨⟨true⟩, [Reply.ioutilTempFile (Except.ok ⟨3, "/tmp/042"⟩)], []⟩ (by decide)
  exact ⟨w.1.trans (by decide), w.2.1.trans (by decide)⟩

section single
variable {σ : Type}

/-- C6: with the memo unset, an anonymous open that fails with an errno other
than EISDIR and EOPNOTSUPP makes `TempFile` return nil, false and the
`*os.PathError` with Op "open", the directory opened and that errno; the open
is the only host call, and the memo is unchanged. -/
theorem TempFile_open_error (h : Host σ) (dir : String) (p : Proc σ) (e : Errno)
    (hm : p.missingTMPFILE.Load = false)
    (ho : (h.Open (resolve h dir p.host) anonMode 0o600 p.host).1.2 = some e)
    (h1 : e ≠ EISDIR) (h2 : e ≠ EOPNOTSUPP) :
    (linux.TempFile h dir p).1 =
        ⟨none, false,
          some (GoError.PathError "open" (resolve h dir p.host) (GoError.errno e))⟩ ∧
      (linux.TempFile h dir p).2.trace =
        p.trace ++ [Event.Open (resolve h dir p.host) anonMode 0o600
          (h.Open (resolve h dir p.host) anonMode 0o600 p.host).1.1 (some e)] ∧
      (linux.TempFile h dir p).2.missingTMPFILE = p.missingTMPFILE ∧
      (linux.TempFile h dir p).2.host =
        (h.Open (resolve h dir p.host) anonMode 0o600 p.host).2 := by
  simp only [resolve, anonMode] at ho
  simp [linux.TempFile, hm, callOpen, resolve, anonMode, ho, h1, h2]

/-- C7: with the memo unset, an anonymous open that succeeds with descriptor
`fd` makes `TempFile` return the file with that descriptor, named
"/proc/self/fd/" followed by the decimal digits of `fd`, with `remove = false`
and no error; the open is the only host call, and the memo is unchanged. -/
theorem TempFile_open_success (h : Host σ) (dir : String) (p : Proc σ) (fd : Nat)
    (hm : p.missingTMPFILE.Load = false)
    (ho : (h.Open (resolve h dir p.host) anonMode 0o600 p.host).1 = ((fd : Int), none))
    (hfd : fd < 2 ^ 63) :
    (linux.TempFile h dir p).1 =
        ⟨some ⟨fd, "/proc/self/fd/" ++ Nat.repr fd⟩, false, none⟩ ∧
      (linux.TempFile h dir p).2.trace =
        p.trace ++ [Event.Open (resolve h dir p.host) anonMode 0o600 (fd : Int) none] ∧
      (linux.TempFile h dir p).2.missingTMPFILE = p.missingTMPFILE ∧
      (linux.TempFile h dir p).2.host =
        (h.Open (resolve h dir p.host) anonMode 0o600 p.host).2 := by
  simp only [resolve, anonMode] at ho
  have hu : ((fd : Int) % 18446744073709551616).toNat = fd := by omega
  simp [linux.TempFile, hm, callOpen, resolve, anonMode, ho, uint64, uintptr, NewFile,
    FormatUint, hu]
  omega

end single

theorem TempFile_open_error_witness :
    (linux.TempFile scripted "" (Proc.start [Reply.Open (-1) (some EACCES)])).1 =
      ⟨none, false, some (GoError.PathError "open" "/tmp" (GoError.errno EACCES))⟩ ∧
    (linux.TempFile scripted "" (Proc.start [Reply.Open (-1) (some EACCES)])).2.trace =
      [Event.Open "/tmp" 0x490002 0o600 (-1) (some EACCES)] := by
  have w := TempFile_open_error scripted "" (Proc.start [Reply.Open (-1) (some EACCES)])
    EACCES (by decide) (by decide) (by decide) (by decide)
  exact ⟨w.1.trans (by decide), w.2.1.trans (by decide)⟩

theorem TempFile_open_success_witness :
    (linux.TempFile scripted "/var/tmp" (Proc.start [Reply.Open 7 none])).1 =
      ⟨some ⟨7, "/proc/self/fd/7"⟩, false, none⟩ ∧
    (linux.TempFile scripted "/var/tmp" (Proc.start [Reply.Open 7 none])).2.trace =
      [Event.Open "/var/tmp" 0x490002 0o600 7 none] := by
  have w := TempFile_open_success scripted "/var/tmp" (Proc.start [Reply.Open 7 none]) 7
    (by decide) (by decide) (by decide)
  exact ⟨w.1.trans (by decide), w.2.1.trans (by decide)⟩

section single
variable {σ : Type}

theorem added_of_trace {p q : Proc σ} {l : List Event} (ht : q.trace = p.trace ++ l) :
    added p q = l := by
  simp only [added, ht, List.drop_left]

/-- The four paths of `Link`, each with its result and the host calls it makes. -/
theorem Link_paths (h : Host σ) (f : File) (newpath : String) (p : Proc σ) :
    (p.missingTMPFILE.Load = true →
      (linux.Link h f newpath p).1 = (h.Rename f.Name newpath p.host).1 ∧
      (linux.Link h f newpath p).2.trace =
        p.trace ++ [Event.Rename f.Name newpath (h.Rename f.Name newpath p.host).1]) ∧
    (p.missingTMPFILE.Load = false →
      (h.Syscall SYS_FCNTL f.Fd F_GETFL 0 p.host).1.2.2 ≠ 0 →
      (linux.Link h f newpath p).1 =
        some (GoError.LinkError "link" f.Name newpath
          (GoError.errno (h.Syscall SYS_FCNTL f.Fd F_GETFL 0 p.host).1.2.2)) ∧
      (linux.Link h f newpath p).2.trace =
        p.trace ++ [Event.Syscall SYS_FCNTL f.Fd F_GETFL 0
          (h.Syscall SYS_FCNTL f.Fd F_GETFL 0 p.host).1.1
          (h.Syscall SYS_FCNTL f.Fd F_GETFL 0 p.host).1.2.1
          (h.Syscall SYS_FCNTL f.Fd F_GETFL 0 p.host).1.2.2]) ∧
    (p.missingTMPFILE.Load = false →
      (h.Syscall SYS_FCNTL f.Fd F_GETFL 0 p.host).1.2.2 = 0 →
      (h.Syscall SYS_FCNTL f.Fd F_GETFL 0 p.host).1.1 &&& O_TMPFILE ≠ O_TMPFILE →
      (linux.Link h f newpath p).1 =
        (h.Rename f.Name newpath (h.Syscall SYS_FCNTL f.Fd F_GETFL 0 p.host).2).1 ∧
      (linux.Link h f newpath p).2.trace =
        p.trace ++ [Event.Syscall SYS_FCNTL f.Fd F_GETFL 0
          (h.Syscall SYS_FCNTL f.Fd F_GETFL 0 p.host).1.1
          (h.Syscall SYS_FCNTL f.Fd F_GETFL 0 p.host).1.2.1 0,
          Event.Rename f.Name newpath
            (h.Rename f.Name newpath (h.Syscall SYS_FCNTL f.Fd F_GETFL 0 p.host).2).1]) ∧
    (p.missingTMPFILE.Load = false →
      (h.Syscall SYS_FCNTL f.Fd F_GETFL 0 p.host).1.2.2 = 0 →
      (h.Syscall SYS_FCNTL f.Fd F_GETFL 0 p.host).1.1 &&& O_TMPFILE = O_TMPFILE →
      (linux.Link h f newpath p).2.trace =
        p.trace ++ [Event.Syscall SYS_FCNTL f.Fd F_GETFL 0
          (h.Syscall SYS_FCNTL f.Fd F_GETFL 0 p.host).1.1
          (h.Syscall SYS_FCNTL f.Fd F_GETFL 0 p.host).1.2.1 0,
          Event.Linkat AT_FDCWD f.Name AT_FDCWD newpath AT_SYMLINK_FOLLOW
            (h.Linkat AT_FDCWD f.Name AT_FDCWD newpath AT_SYMLINK_FOLLOW
              (h.Syscall SYS_FCNTL f.Fd F_GETFL 0 p.host).2).1]) := by
  refine ⟨?_, ?_, ?_, ?_⟩
  · intro hm
    simp [linux.Link, hm, callRename]
  · intro hm he
    simp [linux.Link, hm, callSyscall, he]
  · intro hm he hfl
    simp [linux.Link, hm, callSyscall, he, hfl, callRename]
  · intro hm he hfl
    unfold linux.Link
    simp only [hm, callSyscall, he, hfl, callLinkat]
    cases h.Linkat AT_FDCWD f.Name AT_FDCWD newpath AT_SYMLINK_FOLLOW
      (h.Syscall SYS_FCNTL f.Fd F_GETFL 0 p.host).2 with
    | mk e s => cases e <;> simp

/-- C4 (as amended): `Link` makes at most one of `os.Rename` and `linkat`.  With
the memo set it only calls `os.Rename(f.Name(), newpath)` and returns its
result.  With the memo unset it first queries the flags with fcntl F_GETFL: if
that fails it returns an `*os.LinkError` with that errno and calls neither; if it
succeeds and the flags lack a bit of O_TMPFILE it calls `os.Rename` and returns
its result; if it succeeds and the flags have all bits of O_TMPFILE it calls
`linkat(AT_FDCWD, f.Name(), AT_FDCWD, newpath, AT_SYMLINK_FOLLOW)` and no
rename.  A `linkat` is made only when the query succeeded with all bits of
O_TMPFILE. -/
theorem Link_chooses_primitive (h : Host σ) (f : File) (newpath : String) (p : Proc σ) :
    (p.missingTMPFILE.Load = true →
      (linux.Link h f newpath p).1 = (h.Rename f.Name newpath p.host).1 ∧
      added p (linux.Link h f newpath p).2 =
        [Event.Rename f.Name newpath (h.Rename f.Name newpath p.host).1]) ∧
    (p.missingTMPFILE.Load = false →
      (h.Syscall SYS_FCNTL f.Fd F_GETFL 0 p.host).1.2.2 ≠ 0 →
      (linux.Link h f newpath p).1 =
        some (GoError.LinkError "link" f.Name newpath
          (GoError.errno (h.Syscall SYS_FCNTL f.Fd F_GETFL 0 p.host).1.2.2)) ∧
      added p (linux.Link h f newpath p).2 =
        [Event.Syscall SYS_FCNTL f.Fd F_GETFL 0
          (h.Syscall SYS_FCNTL f.Fd F_GETFL 0 p.host).1.1
          (h.Syscall SYS_FCNTL f.Fd F_GETFL 0 p.host).1.2.1
          (h.Syscall SYS_FCNTL f.Fd F_GETFL 0 p.host).1.2.2]) ∧
    (p.missingTMPFILE.Load = false →
      (h.Syscall SYS_FCNTL f.Fd F_GETFL 0 p.host).1.2.2 = 0 →
      (h.Syscall SYS_FCNTL f.Fd F_GETFL 0 p.host).1.1 &&& O_TMPFILE ≠ O_TMPFILE →
      (linux.Link h f newpath p).1 =
        (h.Rename f.Name newpath (h.Syscall SYS_FCNTL f.Fd F_GETFL 0 p.host).2).1 ∧
      added p (linux.Link h f newpath p).2 =
        [Event.Syscall SYS_FCNTL f.Fd F_GETFL 0
          (h.Syscall SYS_FCNTL f.Fd F_GETFL 0 p.host).1.1
          (h.Syscall SYS_FCNTL f.Fd F_GETFL 0 p.host).1.2.1 0,
          Event.Rename f.Name newpath
            (h.Rename f.Name newpath (h.Syscall SYS_FCNTL f.Fd F_GETFL 0 p.host).2).1]) ∧
    (p.missingTMPFILE.Load = false →
      (h.Syscall SYS_FCNTL f.Fd F_GETFL 0 p.host).1.2.2 = 0 →
      (h.Syscall SYS_FCNTL f.Fd F_GETFL 0 p.host).1.1 &&& O_TMPFILE = O_TMPFILE →
      added p (linux.Link h f newpath p).2 =
        [Event.Syscall SYS_FCNTL f.Fd F_GETFL 0
          (h.Syscall SYS_FCNTL f.Fd F_GETFL 0 p.host).1.1
          (h.Syscall SYS_FCNTL f.Fd F_GETFL 0 p.host).1.2.1 0,
          Event.Linkat AT_FDCWD f.Name AT_FDCWD newpath AT_SYMLINK_FOLLOW
            (h.Linkat AT_FDCWD f.Name AT_FDCWD newpath AT_SYMLINK_FOLLOW
              (h.Syscall SYS_FCNTL f.Fd F_GETFL 0 p.host).2).1]) ∧
    ((added p (linux.Link h f newpath p).2).filter
        (fun e => e.isRename || e.isLinkat)).length ≤ 1 ∧
    ((added p (linux.Link h f newpath p).2).any Event.isLinkat = true →
      p.missingTMPFILE.Load = false ∧
      (h.Syscall SYS_FCNTL f.Fd F_GETFL 0 p.host).1.2.2 = 0 ∧
      (h.Syscall SYS_FCNTL f.Fd F_GETFL 0 p.host).1.1 &&& O_TMPFILE = O_TMPFILE) := by
  obtain ⟨a, b, c, d⟩ := Link_paths h f newpath p
  have ha := fun hm => added_of_trace (a hm).2
  have hb := fun hm he => added_of_trace (b hm he).2
  have hc := fun hm he hfl => added_of_trace (c hm he hfl).2
  have hd := fun hm he hfl => added_of_trace (d hm he hfl)
  refine ⟨fun hm => ⟨(a hm).1, ha hm⟩, fun hm he => ⟨(b hm he).1, hb hm he⟩,
    fun hm he hfl => ⟨(c hm he hfl).1, hc hm he hfl⟩, hd, ?_, ?_⟩
  · by_cases hm : p.missingTMPFILE.Load = true
    · rw [ha hm]; simp [Event.isRename]
    · have hm : p.missingTMPFILE.Load = false := by simpa using hm
      by_cases he : (h.Syscall SYS_FCNTL f.Fd F_GETFL 0 p.host).1.2.2 = 0
      · by_cases hfl : (h.Syscall SYS_FCNTL f.Fd F_GETFL 0 p.host).1.1 &&& O_TMPFILE
            = O_TMPFILE
        · rw [hd hm he hfl]; simp [Event.isRename, Event.isLinkat]
        · rw [hc hm he hfl]; simp [Event.isRename, Event.isLinkat]
      · rw [hb hm he]; simp [Event.isRename, Event.isLinkat]
  · intro hany
    by_cases hm : p.missingTMPFILE.Load = true
    · rw [ha hm] at hany; simp [Event.isLinkat] at hany
    · have hm : p.missingTMPFILE.Load = false := by simpa using hm
      by_cases he : (h.Syscall SYS_FCNTL f.Fd F_GETFL 0 p.host).1.2.2 = 0
      · by_cases hfl : (h.Syscall SYS_FCNTL f.Fd F_GETFL 0 p.host).1.1 &&& O_TMPFILE
            = O_TMPFILE
        · exact ⟨hm, he, hfl⟩
        · rw [hc hm he hfl] at hany; simp [Event.isLinkat] at hany
      · rw [hb hm he] at hany; simp [Event.isLinkat] at hany

end single

/-- C4 fails as stated: with the memo unset and a descriptor on which fcntl
fails (its result then has every bit set), `Link` returns an error after the
flag query alone, calling neither `os.Rename` nor `linkat`. -/
theorem Link_chooses_primitive_counterexample :
    (linux.Link scripted ⟨2 ^ 64 - 1, "/proc/self/fd/5"⟩ "/srv/out"
      (Proc.start [Reply.Syscall (2 ^ 64 - 1) 0 EBADF])).1 =
      some (GoError.LinkError "link" "/proc/self/fd/5" "/srv/out" (GoError.errno EBADF)) ∧
    (linux.Link scripted ⟨2 ^ 64 - 1, "/proc/self/fd/5"⟩ "/srv/out"
      (Proc.start [Reply.Syscall (2 ^ 64 - 1) 0 EBADF])).2.trace =
      [Event.Syscall SYS_FCNTL (2 ^ 64 - 1) F_GETFL 0 (2 ^ 64 - 1) 0 EBADF] ∧
    (2 ^ 64 - 1) &&& O_TMPFILE = O_TMPFILE := by
  decide

theorem Link_chooses_primitive_witness :
    (linux.Link scripted ⟨4, "/tmp/042"⟩ "/srv/out"
      (Proc.start [Reply.Syscall 0x8002 0 0, Reply.Rename none])).1 = none ∧
    (linux.Link scripted ⟨4, "/tmp/042"⟩ "/srv/out"
      (Proc.start [Reply.Syscall 0x8002 0 0, Reply.Rename none])).2.trace =
      [Event.Syscall SYS_FCNTL 4 F_GETFL 0 0x8002 0 0,
        Event.Rename "/tmp/042" "/srv/out" none] := by
  have w := (Link_chooses_primitive scripted ⟨4, "/tmp/042"⟩ "/srv/out"
    (Proc.start [Reply.Syscall 0x8002 0 0, Reply.Rename none])).2.2.1
    (by decide) (by decide) (by decide)
  exact ⟨w.1.trans (by decide), by
    have t := w.2
    simp only [added, Proc.start, List.length_nil, List.drop_zero] at t
    exact t.trans (by decide)⟩

/-! ## Sequences of calls: the memo -/

section sequences
variable {σ : Type}

theorem fallback_not_anonymous (h : Host σ) (dir : String) (p : Proc σ) :
    (linux.fallback h dir p).1.anonymous = false := by
  rw [fallback_fst]
  cases (h.ioutilTempFile dir "" p.host).1.2 <;> simp [Result.anonymous]

/-- What one `TempFile` does to the memo, the trace and the kind of its result. -/
theorem TempFile_step (h : Host σ) (dir : String) (p : Proc σ) :
    (p.missingTMPFILE.Load = true ∧
      (linux.TempFile h dir p).2.missingTMPFILE = p.missingTMPFILE ∧
      (linux.TempFile h dir p).1.anonymous = false ∧
      ∃ l, (linux.TempFile h dir p).2.trace = p.trace ++ l) ∨
    (p.missingTMPFILE.Load = false ∧
      (linux.TempFile h dir p).2.missingTMPFILE = p.missingTMPFILE ∧
      ∃ e, (linux.TempFile h dir p).2.trace = p.trace ++ [e] ∧ e.openOk = true) ∨
    (p.missingTMPFILE.Load = false ∧
      (linux.TempFile h dir p).2.missingTMPFILE = p.missingTMPFILE ∧
      (linux.TempFile h dir p).1.anonymous = false ∧
      ∃ l, (linux.TempFile h dir p).2.trace = p.trace ++ l) ∨
    (p.missingTMPFILE.Load = false ∧
      (linux.TempFile h dir p).2.missingTMPFILE.Load = true ∧
      (linux.TempFile h dir p).1.anonymous = false ∧
      ∃ e l, (linux.TempFile h dir p).2.trace = p.trace ++ e :: l ∧ e.openEISDIR = true) := by
  by_cases hm : p.missingTMPFILE.Load = true
  · left
    rw [TempFile_memo_set h dir p hm]
    exact ⟨hm, by rw [fallback_snd], fallback_not_anonymous .., ⟨_, by rw [fallback_snd]⟩⟩
  · have hm : p.missingTMPFILE.Load = false := by simpa using hm
    right
    unfold linux.TempFile
    simp only [hm, Bool.false_eq_true, if_false]
    cases ho : (callOpen h (if dir = "" then h.TempDir p.host else dir)
        (O_RDWR ||| O_TMPFILE ||| O_CLOEXEC) 0o600 p).1.2 with
    | none =>
      left
      simp only [callOpen] at ho
      simp [callOpen, ho, Event.openOk]
    | some e =>
      simp only [callOpen] at ho
      right
      by_cases h1 : e = EISDIR
      · right
        simp only [h1, if_true]
        refine ⟨trivial, ?_, fallback_not_anonymous .., ?_⟩
        · rw [fallback_snd]; rfl
        · rw [fallback_snd]
          simp [callOpen, ho, h1, Event.openEISDIR]
      · left
        by_cases h2 : e = EOPNOTSUPP
        · subst h2
          have hne : ¬ (EOPNOTSUPP = EISDIR) := by decide
          simp only [hne, if_true, if_false]
          refine ⟨trivial, ?_, fallback_not_anonymous .., ?_⟩
          · rw [fallback_snd]; rfl
          · rw [fallback_snd]
            simp [callOpen]
        · simp [h1, h2, callOpen, Result.anonymous]

theorem Link_memo (h : Host σ) (f : File) (newpath : String) (p : Proc σ) :
    (linux.Link h f newpath p).2.missingTMPFILE = p.missingTMPFILE := by
  unfold linux.Link
  by_cases hm : p.missingTMPFILE.Load = true
  · simp [hm, callRename]
  · simp only [hm, Bool.false_eq_true, if_false]
    split
    · rfl
    · split
      · rfl
      · split <;> rfl

theorem Link_trace (h : Host σ) (f : File) (newpath : String) (p : Proc σ) :
    ∃ l, (linux.Link h f newpath p).2.trace = p.trace ++ l := by
  obtain ⟨a, b, c, d⟩ := Link_paths h f newpath p
  by_cases hm : p.missingTMPFILE.Load = true
  · exact ⟨_, (a hm).2⟩
  · have hm : p.missingTMPFILE.Load = false := by simpa using hm
    by_cases he : (h.Syscall SYS_FCNTL f.Fd F_GETFL 0 p.host).1.2.2 = 0
    · by_cases hfl : (h.Syscall SYS_FCNTL f.Fd F_GETFL 0 p.host).1.1 &&& O_TMPFILE
          = O_TMPFILE
      · exact ⟨_, d hm he hfl⟩
      · exact ⟨_, (c hm he hfl).2⟩
    · exact ⟨_, (b hm he).2⟩

theorem TempFile_memo_stays (h : Host σ) (dir : String) (p : Proc σ)
    (hm : p.missingTMPFILE.Load = true) :
    (linux.TempFile h dir p).2.missingTMPFILE.Load = true := by
  rw [TempFile_memo_set h dir p hm, fallback_snd]
  exact hm

theorem exec_memo_stays (h : Host σ) (c : Call) (s : Session σ)
    (hm : s.proc.missingTMPFILE.Load = true) :
    (exec h c s).proc.missingTMPFILE.Load = true := by
  cases c with
  | TempFile dir => exact TempFile_memo_stays h dir s.proc hm
  | Link f newpath =>
    show (linux.Link h f newpath s.proc).2.missingTMPFILE.Load = true
    rw [Link_memo]; exact hm

theorem run_memo_stays (h : Host σ) (cs : List Call) (s : Session σ)
    (hm : s.proc.missingTMPFILE.Load = true) :
    (run h cs s).proc.missingTMPFILE.Load = true := by
  induction cs generalizing s with
  | nil => exact hm
  | cons c cs ih => exact ih (exec h c s) (exec_memo_stays h c s hm)

/-- C10: the memo starts unset; `TempFile` either leaves it as it is or takes it
from unset to set; `Link` never changes it; once set it is set after every later
sequence of calls; and setting it when it is set changes nothing. -/
theorem memo_monotonic (h : Host σ) :
    (∀ s : σ, (Proc.start s).missingTMPFILE.Load = false) ∧
    (∀ dir p, (linux.TempFile h dir p).2.missingTMPFILE = p.missingTMPFILE ∨
      (p.missingTMPFILE.Load = false ∧
        (linux.TempFile h dir p).2.missingTMPFILE.Load = true)) ∧
    (∀ f newpath p, (linux.Link h f newpath p).2.missingTMPFILE = p.missingTMPFILE) ∧
    (∀ cs s, s.proc.missingTMPFILE.Load = true →
      (run h cs s).proc.missingTMPFILE.Load = true) ∧
    (∀ b : AtomicBool, b.Set.Load = true) ∧
    (∀ b : AtomicBool, b.Load = true → b.Set = b) := by
  refine ⟨fun _ => rfl, ?_, Link_memo h, run_memo_stays h, fun _ => rfl, ?_⟩
  · intro dir p
    rcases TempFile_step h dir p with ⟨_, e, _⟩ | ⟨_, e, _⟩ | ⟨_, e, _⟩ | ⟨hm, e, _⟩
    · exact Or.inl e
    · exact Or.inl e
    · exact Or.inl e
    · exact Or.inr ⟨hm, e⟩
  · rintro ⟨v⟩ hv
    simp only [AtomicBool.Load] at hv
    simp [AtomicBool.Set, hv]

end sequences

theorem memo_monotonic_witness :
    (run scripted [Call.TempFile "/tmp", Call.Link ⟨3, "/tmp/042"⟩ "/srv/out",
        Call.TempFile "/_not_exists_"]
      ⟨⟨⟨true⟩, [], []⟩, []⟩).proc.missingTMPFILE.Load = true :=
  (memo_monotonic scripted).2.2.2.1 _ _ (by decide)

/-! ## Sequences of calls: the handles behind a set memo -/

section handles
variable {σ : Type}

/-- The four paths of `TempFile` when the memo is unset. -/
theorem TempFile_unset {σ : Type} (h : Host σ) (dir : String) (p : Proc σ)
    (hm : p.missingTMPFILE.Load = false) :
    ((h.Open (resolve h dir p.host) anonMode 0o600 p.host).1.2 = none →
      linux.TempFile h dir p =
        (⟨NewFile (uintptr (h.Open (resolve h dir p.host) anonMode 0o600 p.host).1.1)
            ("/proc/self/fd/" ++
              FormatUint (uint64 (h.Open (resolve h dir p.host) anonMode 0o600 p.host).1.1)),
          false, none⟩,
          (callOpen h (resolve h dir p.host) anonMode 0o600 p).2)) ∧
    ((h.Open (resolve h dir p.host) anonMode 0o600 p.host).1.2 = some EISDIR →
      linux.TempFile h dir p =
        linux.fallback h (resolve h dir p.host)
          { (callOpen h (resolve h dir p.host) anonMode 0o600 p).2 with
            missingTMPFILE := AtomicBool.Set p.missingTMPFILE }) ∧
    ((h.Open (resolve h dir p.host) anonMode 0o600 p.host).1.2 = some EOPNOTSUPP →
      linux.TempFile h dir p =
        linux.fallback h (resolve h dir p.host)
          (callOpen h (resolve h dir p.host) anonMode 0o600 p).2) ∧
    (∀ e, (h.Open (resolve h dir p.host) anonMode 0o600 p.host).1.2 = some e →
      e ≠ EISDIR → e ≠ EOPNOTSUPP →
      linux.TempFile h dir p =
        (⟨none, false,
          some (GoError.PathError "open" (resolve h dir p.host) (GoError.errno e))⟩,
          (callOpen h (resolve h dir p.host) anonMode 0o600 p).2)) := by
  have hne : ¬ (EOPNOTSUPP = EISDIR) := by decide
  refine ⟨?_, ?_, ?_, ?_⟩
  · intro ho
    simp only [resolve, anonMode] at ho
    simp [linux.TempFile, hm, callOpen, resolve, anonMode, ho]
  · intro ho
    simp only [resolve, anonMode] at ho
    simp [linux.TempFile, hm, callOpen, resolve, anonMode, ho, AtomicBool.Set]
  · intro ho
    simp only [resolve, anonMode] at ho
    simp [linux.TempFile, hm, callOpen, resolve, anonMode, ho, hne]
  · intro e ho h1 h2
    simp only [resolve, anonMode] at ho
    simp [linux.TempFile, hm, callOpen, resolve, anonMode, ho, h1, h2]

/-- A result of `TempFile` is anonymous exactly when the memo was unset and the
anonymous open succeeded with a descriptor that `os.NewFile` accepts. -/
theorem TempFile_anonymous_iff {σ : Type} (h : Host σ) (dir : String) (p : Proc σ) :
    (linux.TempFile h dir p).1.anonymous = true ↔
      (p.missingTMPFILE.Load = false ∧
        (h.Open (resolve h dir p.host) anonMode 0o600 p.host).1.2 = none ∧
        (NewFile (uintptr (h.Open (resolve h dir p.host) anonMode 0o600 p.host).1.1)
          ("/proc/self/fd/" ++
            FormatUint (uint64 (h.Open (resolve h dir p.host) anonMode 0o600 p.host).1.1))
          ).isSome = true) := by
  by_cases hm : p.missingTMPFILE.Load = true
  · rw [TempFile_memo_set h dir p hm, fallback_not_anonymous]
    simp [hm]
  · have hm0 : p.missingTMPFILE.Load = false := by simpa using hm
    obtain ⟨c1, c2, c3, c4⟩ := TempFile_unset h dir p hm0
    cases ho : (h.Open (resolve h dir p.host) anonMode 0o600 p.host).1.2 with
    | none =>
      rw [c1 ho]
      simp [Result.anonymous, hm0]
    | some e =>
      have hfalse : (linux.TempFile h dir p).1.anonymous = false := by
        by_cases h1 : e = EISDIR
        · rw [c2 (h1 ▸ ho)]; exact fallback_not_anonymous ..
        · by_cases h2 : e = EOPNOTSUPP
          · rw [c3 (h2 ▸ ho)]; exact fallback_not_anonymous ..
          · rw [c4 e ho h1 h2]; rfl
      rw [hfalse]
      simp

theorem NoOpenThenEISDIR_left {a b : List Event} (hk : NoOpenThenEISDIR (a ++ b)) :
    NoOpenThenEISDIR a :=
  (List.pairwise_append.1 hk).1

theorem not_NoOpenThenEISDIR {a l : List Event} {e0 e : Event} (h0 : e0 ∈ a)
    (hok : e0.openOk = true) (he : e.openEISDIR = true) :
    ¬ NoOpenThenEISDIR (a ++ e :: l) := by
  intro hk
  exact (List.pairwise_append.1 hk).2.2 e0 h0 e (List.mem_cons_self _ _) ⟨hok, he⟩

theorem exec_inv (h : Host σ) (c : Call) (s : Session σ) (hs : SessionInv s) :
    SessionInv (exec h c s) := by
  obtain ⟨i1, i2⟩ := hs
  cases c with
  | Link f newpath =>
    obtain ⟨l, hl⟩ := Link_trace h f newpath s.proc
    refine ⟨?_, ?_⟩
    · intro r hr ha
      obtain ⟨e, he, hok⟩ := i1 r hr ha
      refine ⟨e, ?_, hok⟩
      show e ∈ (linux.Link h f newpath s.proc).2.trace
      rw [hl]; exact List.mem_append_left _ he
    · intro hm hex hk
      have hm0 : s.proc.missingTMPFILE.Load = true := by
        have : (linux.Link h f newpath s.proc).2.missingTMPFILE.Load = true := hm
        rwa [Link_memo] at this
      have hk0 : NoOpenThenEISDIR ((linux.Link h f newpath s.proc).2.trace) := hk
      rw [hl] at hk0
      exact i2 hm0 hex (NoOpenThenEISDIR_left hk0)
  | TempFile dir =>
    have old : ∀ l, (linux.TempFile h dir s.proc).2.trace = s.proc.trace ++ l →
        (linux.TempFile h dir s.proc).1.anonymous = false →
        ∀ r ∈ (exec h (Call.TempFile dir) s).returned, r.anonymous = true →
          r ∈ s.returned ∧ ∃ e ∈ (exec h (Call.TempFile dir) s).proc.trace,
            e.openOk = true := by
      intro l hl hna r hr ha
      have hr0 : r ∈ s.returned ++ [(linux.TempFile h dir s.proc).1] := hr
      rcases List.mem_append.1 hr0 with hr1 | hr1
      · obtain ⟨e, he, hok⟩ := i1 r hr1 ha
        refine ⟨hr1, e, ?_, hok⟩
        show e ∈ (linux.TempFile h dir s.proc).2.trace
        rw [hl]; exact List.mem_append_left _ he
      · rw [List.mem_singleton] at hr1
        rw [hr1, hna] at ha
        exact absurd ha (by decide)
    rcases TempFile_step h dir s.proc with ⟨hm, hmm, hna, l, hl⟩ | ⟨hm, hmm, e, hl, hok⟩ |
      ⟨hm, hmm, hna, l, hl⟩ | ⟨hm, hmm, hna, e, l, hl, he⟩
    · refine ⟨fun r hr ha => (old l hl hna r hr ha).2, ?_⟩
      intro _ hex hk
      obtain ⟨r, hr, ha⟩ := hex
      have hk0 : NoOpenThenEISDIR ((linux.TempFile h dir s.proc).2.trace) := hk
      rw [hl] at hk0
      exact i2 hm ⟨r, (old l hl hna r hr ha).1, ha⟩ (NoOpenThenEISDIR_left hk0)
    · refine ⟨?_, ?_⟩
      · intro r hr ha
        have hr0 : r ∈ s.returned ++ [(linux.TempFile h dir s.proc).1] := hr
        show ∃ e ∈ (linux.TempFile h dir s.proc).2.trace, e.openOk = true
        rw [hl]
        rcases List.mem_append.1 hr0 with hr1 | _
        · obtain ⟨e0, he0, hok0⟩ := i1 r hr1 ha
          exact ⟨e0, List.mem_append_left _ he0, hok0⟩
        · exact ⟨e, List.mem_append_right _ (List.mem_singleton.2 rfl), hok⟩
      · intro hm1
        have : (linux.TempFile h dir s.proc).2.missingTMPFILE.Load = true := hm1
        rw [hmm, hm] at this
        exact absurd this (by decide)
    · refine ⟨fun r hr ha => (old l hl hna r hr ha).2, ?_⟩
      intro hm1
      have : (linux.TempFile h dir s.proc).2.missingTMPFILE.Load = true := hm1
      rw [hmm, hm] at this
      exact absurd this (by decide)
    · refine ⟨fun r hr ha => (old _ hl hna r hr ha).2, ?_⟩
      intro _ hex hk
      obtain ⟨r, hr, ha⟩ := hex
      obtain ⟨e0, he0, hok0⟩ := i1 r (old _ hl hna r hr ha).1 ha
      have hk0 : NoOpenThenEISDIR ((linux.TempFile h dir s.proc).2.trace) := hk
      rw [hl] at hk0
      exact not_NoOpenThenEISDIR he0 hok0 he hk0

theorem run_inv (h : Host σ) (cs : List Call) (s : Session σ) (hs : SessionInv s) :
    SessionInv (run h cs s) := by
  induction cs generalizing s with
  | nil => exact hs
  | cons c cs ih => exact ih (exec h c s) (exec_inv h c s hs)

theorem exec_trace (h : Host σ) (c : Call) (s : Session σ) :
    ∃ l, (exec h c s).proc.trace = s.proc.trace ++ l := by
  cases c with
  | Link f newpath => exact Link_trace h f newpath s.proc
  | TempFile dir =>
    rcases TempFile_step h dir s.proc with ⟨_, _, _, l, hl⟩ | ⟨_, _, e, hl, _⟩ |
      ⟨_, _, _, l, hl⟩ | ⟨_, _, _, e, l, hl, _⟩
    · exact ⟨l, hl⟩
    · exact ⟨[e], hl⟩
    · exact ⟨l, hl⟩
    · exact ⟨e :: l, hl⟩

theorem run_trace (h : Host σ) (cs : List Call) (s : Session σ) :
    ∃ l, (run h cs s).proc.trace = s.proc.trace ++ l := by
  induction cs generalizing s with
  | nil => exact ⟨[], (List.append_nil _).symm⟩
  | cons c cs ih =>
    obtain ⟨l1, h1⟩ := exec_trace h c s
    obtain ⟨l2, h2⟩ := ih (exec h c s)
    exact ⟨l1 ++ l2, by
      show (run h cs (exec h c s)).proc.trace = _
      rw [h2, h1, List.append_assoc]⟩

theorem run_append (h : Host σ) (pre post : List Call) (s : Session σ) :
    run h (pre ++ post) s = run h post (run h pre s) := by
  simp [run, List.foldl_append]

theorem start_inv (s0 : σ) : SessionInv (Session.start s0) := by
  refine ⟨?_, ?_⟩
  · intro r hr; exact absurd hr (List.not_mem_nil r)
  · intro hm; exact absurd hm (by simp [Session.start, Proc.start, AtomicBool.Load])

/-- C9 (as amended): take any sequence of `TempFile` and `Link` calls from
process start in whose host calls no open that fails with EISDIR comes after an
open that succeeded.  At every point of it where the memo is set, no result
that `TempFile` has returned so far is an anonymous handle, so the rename that
`Link` then makes is never given the name of one.  Here a result is anonymous
exactly when it was made by a successful anonymous open. -/
theorem memo_set_handles_fallback (h : Host σ) (s0 : σ) (pre post : List Call)
    (hk : NoOpenThenEISDIR (run h (pre ++ post) (Session.start s0)).proc.trace)
    (hm : (run h pre (Session.start s0)).proc.missingTMPFILE.Load = true) :
    (∀ r ∈ (run h pre (Session.start s0)).returned, r.anonymous = false) ∧
    (∀ dir p, (linux.TempFile h dir p).1.anonymous = true ↔
      (p.missingTMPFILE.Load = false ∧
        (h.Open (resolve h dir p.host) anonMode 0o600 p.host).1.2 = none ∧
        (NewFile (uintptr (h.Open (resolve h dir p.host) anonMode 0o600 p.host).1.1)
          ("/proc/self/fd/" ++
            FormatUint (uint64 (h.Open (resolve h dir p.host) anonMode 0o600 p.host).1.1))
          ).isSome = true)) := by
  refine ⟨?_, TempFile_anonymous_iff h⟩
  intro r hr
  obtain ⟨l, hl⟩ := run_trace h post (run h pre (Session.start s0))
  rw [run_append, hl] at hk
  have hinv := run_inv h pre (Session.start s0) (start_inv s0)
  by_contra ha
  have ha1 : r.anonymous = true := by simpa using ha
  exact hinv.2 hm ⟨r, hr, ha1⟩ (NoOpenThenEISDIR_left hk)

end handles

/-- C9 fails as stated: the host lets one open succeed and answers EISDIR to the
next; the memo is then set although the first handle returned is anonymous, and
`Link` renames from its name "/proc/self/fd/3". -/
theorem memo_set_handles_counterexample :
    (run scripted [Call.TempFile "/tmp", Call.TempFile "/mnt"]
      (Session.start [Reply.Open 3 none, Reply.Open (-1) (some EISDIR),
        Reply.ioutilTempFile (Except.ok ⟨4, "/mnt/042"⟩)])).proc.missingTMPFILE.Load
      = true ∧
    (run scripted [Call.TempFile "/tmp", Call.TempFile "/mnt"]
      (Session.start [Reply.Open 3 none, Reply.Open (-1) (some EISDIR),
        Reply.ioutilTempFile (Except.ok ⟨4, "/mnt/042"⟩)])).returned =
      [⟨some ⟨3, "/proc/self/fd/3"⟩, false, none⟩, ⟨some ⟨4, "/mnt/042"⟩, true, none⟩] ∧
    added
      (run scripted [Call.TempFile "/tmp", Call.TempFile "/mnt"]
        (Session.start [Reply.Open 3 none, Reply.Open (-1) (some EISDIR),
          Reply.ioutilTempFile (Except.ok ⟨4, "/mnt/042"⟩)])).proc
      (run scripted [Call.TempFile "/tmp", Call.TempFile "/mnt",
          Call.Link ⟨3, "/proc/self/fd/3"⟩ "/srv/out"]
        (Session.start [Reply.Open 3 none, Reply.Open (-1) (some EISDIR),
          Reply.ioutilTempFile (Except.ok ⟨4, "/mnt/042"⟩)])).proc =
      [Event.Rename "/proc/self/fd/3" "/srv/out"
        (some (GoError.LinkError "rename" "/proc/self/fd/3" "/srv/out"
          (GoError.errno ENOENT)))] := by
  decide

theorem memo_set_handles_fallback_witness :
    (run scripted [Call.TempFile "/tmp", Call.TempFile "/mnt"]
      (Session.start [Reply.Open (-1) (some EISDIR),
        Reply.ioutilTempFile (Except.ok ⟨3, "/tmp/042"⟩),
        Reply.ioutilTempFile (Except.ok ⟨4, "/mnt/043"⟩)])).proc.missingTMPFILE.Load = true ∧
    Result.anonymous ⟨some ⟨4, "/mnt/043"⟩, true, none⟩ = false :=
  ⟨by decide,
    (memo_set_handles_fallback scripted
      [Reply.Open (-1) (some EISDIR), Reply.ioutilTempFile (Except.ok ⟨3, "/tmp/042"⟩),
        Reply.ioutilTempFile (Except.ok ⟨4, "/mnt/043"⟩)]
      [Call.TempFile "/tmp", Call.TempFile "/mnt"] [Call.Link ⟨3, "/tmp/042"⟩ "/srv/out"]
      (by unfold NoOpenThenEISDIR; decide) (by decide)).1
      ⟨some ⟨4, "/mnt/043"⟩, true, none⟩ (by decide)⟩

/-! ## The reference filesystem: content after `Link` -/

theorem sim_contract : IoutilContract sim := by
  intro dir pattern fs
  show (FS.ioutilTempFile dir pattern fs).1.2 ≠ none → (FS.ioutilTempFile dir pattern fs).1.1 = none
  unfold FS.ioutilTempFile
  simp only
  split <;> split_ifs <;> simp

theorem FS.Rename_read (oldpath newpath : String) (fs : FS) (ino : Nat)
    (ho : fs.entries.lookup oldpath = some ino)
    (hr : (FS.Rename oldpath newpath fs).1 = none) :
    FS.readFile newpath (FS.Rename oldpath newpath fs).2 = fs.inodes.lookup ino := by
  unfold FS.Rename at hr ⊢
  simp only [ho] at hr ⊢
  by_cases h1 : (fs.dirs.lookup (dirOf newpath)).isNone = true
  · simp [h1] at hr
  · by_cases h2 : (fs.dirs.lookup newpath).isSome = true
    · simp [h1, h2] at hr
    · by_cases h3 : fs.entries.lookup newpath = some ino
      · simp [h1, h2, h3, FS.readFile]
      · simp [h1, h2, h3, FS.readFile, List.lookup]

theorem FS.Linkat_read (oldpath newpath : String) (flags : Nat) (fs : FS) (ino : Nat)
    (ho : fs.source oldpath flags = some ino)
    (hr : (FS.Linkat AT_FDCWD oldpath AT_FDCWD newpath flags fs).1 = none) :
    FS.readFile newpath (FS.Linkat AT_FDCWD oldpath AT_FDCWD newpath flags fs).2 =
      fs.inodes.lookup ino := by
  unfold FS.Linkat at hr ⊢
  simp only [ho, ne_eq, not_true_eq_false, or_self, if_false] at hr ⊢
  by_cases h1 : (fs.dirs.lookup (dirOf newpath)).isNone = true
  · rw [if_pos h1] at hr; simp at hr
  · rw [if_neg h1] at hr ⊢
    by_cases h2 : (fs.entries.lookup newpath).isSome = true ∨
        (fs.dirs.lookup newpath).isSome = true
    · rw [if_pos h2] at hr; simp at hr
    · rw [if_neg h2]; simp [FS.readFile, List.lookup]

theorem FS.write_spec (fd : Nat) (b : List UInt8) (fs fs2 : FS) (ino fl : Nat)
    (rest : List (Nat × List UInt8)) (hfd : fs.fds.lookup fd = some (ino, fl))
    (hin : fs.inodes = (ino, []) :: rest) (hw : FS.write fd b fs = some fs2) :
    fs2.inodes.lookup ino = some b ∧ fs2.fds = fs.fds ∧ fs2.entries = fs.entries := by
  unfold FS.write at hw
  simp only [hfd, Option.some.injEq] at hw
  subst hw
  simp [hin, List.lookup]

theorem FS.ioutilTempFile_ok (dir pattern : String) (fs : FS) (f : File)
    (hf : (FS.ioutilTempFile dir pattern fs).1.1 = some f) :
    (FS.ioutilTempFile dir pattern fs).2.entries.lookup f.name = some fs.nextIno ∧
    (FS.ioutilTempFile dir pattern fs).2.fds.lookup f.fd =
      some (fs.nextIno, O_RDWR ||| O_LARGEFILE) ∧
    (FS.ioutilTempFile dir pattern fs).2.inodes = (fs.nextIno, []) :: fs.inodes := by
  unfold FS.ioutilTempFile at hf ⊢
  simp only at hf ⊢
  cases hd : fs.dirs.lookup (if dir = "" then fs.tmpdir else dir) with
  | none => simp [hd] at hf
  | some supported =>
    simp only [hd] at hf ⊢
    by_cases h1 : (fs.entries.lookup ((if dir = "" then fs.tmpdir else dir) ++ "/" ++ pattern
        ++ Nat.repr fs.nextName)).isSome = true
    · rw [if_pos h1] at hf; simp at hf
    · rw [if_neg h1] at hf ⊢
      by_cases h2 : 2 ^ 20 ≤ fs.nextFd
      · rw [if_pos h2] at hf; simp at hf
      · rw [if_neg h2] at hf ⊢
        simp only [Option.some.injEq] at hf
        subst hf
        simp [List.lookup]

theorem FS.Open_ok (path : String) (mode perm : Nat) (fs : FS)
    (ho : (FS.Open path mode perm fs).1.2 = none) :
    (FS.Open path mode perm fs).1.1 = (fs.nextFd : Int) ∧ fs.nextFd < 2 ^ 20 ∧
    mode &&& O_TMPFILE = O_TMPFILE ∧
    (FS.Open path mode perm fs).2.fds =
      (fs.nextFd, fs.nextIno, (mode ^^^ (mode &&& O_CLOEXEC)) ||| O_LARGEFILE) :: fs.fds ∧
    (FS.Open path mode perm fs).2.entries = fs.entries ∧
    (FS.Open path mode perm fs).2.inodes = (fs.nextIno, []) :: fs.inodes := by
  unfold FS.Open at ho ⊢
  cases hd : fs.dirs.lookup path with
  | none => simp [hd] at ho
  | some supported =>
    simp only [hd] at ho ⊢
    by_cases h1 : fs.kernelTMPFILE = false ∨ mode &&& O_TMPFILE ≠ O_TMPFILE
    · rw [if_pos h1] at ho; simp at ho
    · rw [if_neg h1] at ho ⊢
      by_cases h2 : supported = false
      · rw [if_pos h2] at ho; simp at ho
      · rw [if_neg h2] at ho ⊢
        by_cases h3 : 2 ^ 20 ≤ fs.nextFd
        · rw [if_pos h3] at ho; simp at ho
        · rw [if_neg h3]
          have h4 : mode &&& O_TMPFILE = O_TMPFILE := by
            by_contra hc; exact h1 (Or.inr hc)
          exact ⟨rfl, by omega, h4, rfl, rfl, rfl⟩

theorem FS.source_head (fd ino fl : Nat) (rest : List (Nat × Nat × Nat))
    (fs : FS) (hfds : fs.fds = (fd, ino, fl) :: rest) :
    fs.source (procName fd) AT_SYMLINK_FOLLOW = some ino := by
  unfold FS.source
  simp [hfds]

theorem FS.source_congr (oldpath : String) (flags : Nat) (fs fs2 : FS)
    (h1 : fs2.fds = fs.fds) (h2 : fs2.entries = fs.entries) :
    fs2.source oldpath flags = fs.source oldpath flags := by
  unfold FS.source
  rw [h1, h2]

theorem sim_fcntl (fd ino fl : Nat) (fs : FS) (hfd : fs.fds.lookup fd = some (ino, fl)) :
    sim.Syscall SYS_FCNTL fd F_GETFL 0 fs = ((fl, 0, 0), fs) := by
  show FS.Syscall SYS_FCNTL fd F_GETFL 0 fs = _
  simp [FS.Syscall, hfd]

theorem Link_named_read (v : Platform) (f : File) (path : String) (p : Proc FS)
    (ino fl : Nat) (he : p.host.entries.lookup f.name = some ino)
    (hfd : p.host.fds.lookup f.fd = some (ino, fl)) (hfl : fl &&& O_TMPFILE ≠ O_TMPFILE)
    (hl : (v.Link sim f path p).1 = none) :
    FS.readFile path (v.Link sim f path p).2.host = p.host.inodes.lookup ino := by
  have ren : ∀ q : Proc FS, q.host = p.host → (callRename sim f.Name path q).1 = none →
      FS.readFile path (callRename sim f.Name path q).2.host = p.host.inodes.lookup ino := by
    intro q hq hr
    have := FS.Rename_read f.name path q.host ino (by rw [hq]; exact he) hr
    rw [hq] at this
    rw [← this]
    simp only [callRename, hq]
    rfl
  cases v with
  | other => exact ren p rfl hl
  | linux =>
    have hq : sim.Syscall SYS_FCNTL f.Fd F_GETFL 0 p.host = ((fl, 0, 0), p.host) :=
      sim_fcntl f.fd ino fl p.host hfd
    change (linux.Link sim f path p).1 = none at hl
    show FS.readFile path (linux.Link sim f path p).2.host = _
    by_cases hm : p.missingTMPFILE.Load = true
    · have e : linux.Link sim f path p = callRename sim f.Name path p := by
        simp [linux.Link, hm]
      rw [e] at hl ⊢
      exact ren p rfl hl
    · have hm0 : p.missingTMPFILE.Load = false := by simpa using hm
      have e : linux.Link sim f path p =
          callRename sim f.Name path (callSyscall sim SYS_FCNTL f.Fd F_GETFL 0 p).2 := by
        simp [linux.Link, hm0, callSyscall, hq, hfl]
      rw [e] at hl ⊢
      exact ren _ (by simp [callSyscall, hq]) hl

theorem Link_anon_read (f : File) (path : String) (p : Proc FS) (ino fl : Nat)
    (hm : p.missingTMPFILE.Load = false)
    (hs : p.host.source f.name AT_SYMLINK_FOLLOW = some ino)
    (hfd : p.host.fds.lookup f.fd = some (ino, fl)) (hfl : fl &&& O_TMPFILE = O_TMPFILE)
    (hl : (linux.Link sim f path p).1 = none) :
    FS.readFile path (linux.Link sim f path p).2.host = p.host.inodes.lookup ino := by
  have hq : sim.Syscall SYS_FCNTL f.Fd F_GETFL 0 p.host = ((fl, 0, 0), p.host) :=
    sim_fcntl f.fd ino fl p.host hfd
  unfold linux.Link at hl ⊢
  simp only [hm, callSyscall, hq, hfl, callLinkat] at hl ⊢
  simp only [Bool.false_eq_true, if_false, ne_eq, not_true_eq_false] at hl ⊢
  cases hk : (sim.Linkat AT_FDCWD f.Name AT_FDCWD path AT_SYMLINK_FOLLOW p.host).1 with
  | some e => simp [hk] at hl
  | none =>
    simp only [hk]
    exact FS.Linkat_read f.name path AT_SYMLINK_FOLLOW p.host ino hs hk

theorem sim_fallback_ok (d : String) (q : Proc FS) (f : File)
    (hf : (linux.fallback sim d q).1.f = some f) :
    (linux.fallback sim d q).2.host.entries.lookup f.name = some q.host.nextIno ∧
    (linux.fallback sim d q).2.host.fds.lookup f.fd =
      some (q.host.nextIno, O_RDWR ||| O_LARGEFILE) ∧
    (linux.fallback sim d q).2.host.inodes = (q.host.nextIno, []) :: q.host.inodes := by
  rw [fallback_fst] at hf
  rw [fallback_snd]
  exact FS.ioutilTempFile_ok d "" q.host f hf

/-- What a successful `TempFile` leaves on the reference filesystem: an open
descriptor on a new empty inode, which either has a directory entry under the
handle's name and flags without O_TMPFILE, or (Linux, memo unset) is reached
through the handle's name under /proc and has the O_TMPFILE flags. -/
theorem sim_TempFile_ok (v : Platform) (dir : String) (p : Proc FS) (f : File)
    (hf : (v.TempFile sim dir p).1.f = some f) :
    ∃ ino fl rest,
      (v.TempFile sim dir p).2.host.fds.lookup f.fd = some (ino, fl) ∧
      (v.TempFile sim dir p).2.host.inodes = (ino, []) :: rest ∧
      (((v.TempFile sim dir p).2.host.entries.lookup f.name = some ino ∧
          fl &&& O_TMPFILE ≠ O_TMPFILE) ∨
        (v = Platform.linux ∧ (v.TempFile sim dir p).2.missingTMPFILE.Load = false ∧
          (v.TempFile sim dir p).2.host.source f.name AT_SYMLINK_FOLLOW = some ino ∧
          fl &&& O_TMPFILE = O_TMPFILE)) := by
  have hnamed : (O_RDWR ||| O_LARGEFILE) &&& O_TMPFILE ≠ O_TMPFILE := by decide
  have fb : ∀ (d : String) (q : Proc FS), (linux.fallback sim d q).1.f = some f →
      ∃ ino fl rest,
        (linux.fallback sim d q).2.host.fds.lookup f.fd = some (ino, fl) ∧
        (linux.fallback sim d q).2.host.inodes = (ino, []) :: rest ∧
        (((linux.fallback sim d q).2.host.entries.lookup f.name = some ino ∧
            fl &&& O_TMPFILE ≠ O_TMPFILE) ∨
          (v = Platform.linux ∧ (linux.fallback sim d q).2.missingTMPFILE.Load = false ∧
            (linux.fallback sim d q).2.host.source f.name AT_SYMLINK_FOLLOW = some ino ∧
            fl &&& O_TMPFILE = O_TMPFILE)) := by
    intro d q hq
    obtain ⟨a, b, c⟩ := sim_fallback_ok d q f hq
    exact ⟨_, _, _, b, c, Or.inl ⟨a, hnamed⟩⟩
  cases v with
  | other => exact fb dir p hf
  | linux =>
    change (linux.TempFile sim dir p).1.f = some f at hf
    show ∃ ino fl rest,
      (linux.TempFile sim dir p).2.host.fds.lookup f.fd = some (ino, fl) ∧
      (linux.TempFile sim dir p).2.host.inodes = (ino, []) :: rest ∧
      (((linux.TempFile sim dir p).2.host.entries.lookup f.name = some ino ∧
          fl &&& O_TMPFILE ≠ O_TMPFILE) ∨
        (Platform.linux = Platform.linux ∧
          (linux.TempFile sim dir p).2.missingTMPFILE.Load = false ∧
          (linux.TempFile sim dir p).2.host.source f.name AT_SYMLINK_FOLLOW = some ino ∧
          fl &&& O_TMPFILE = O_TMPFILE))
    by_cases hm : p.missingTMPFILE.Load = true
    · rw [TempFile_memo_set sim dir p hm] at hf ⊢
      exact fb _ _ hf
    · have hm0 : p.missingTMPFILE.Load = false := by simpa using hm
      obtain ⟨c1, c2, c3, c4⟩ := TempFile_unset sim dir p hm0
      cases ho : (sim.Open (resolve sim dir p.host) anonMode 0o600 p.host).1.2 with
      | some e =>
        by_cases h1 : e = EISDIR
        · rw [c2 (h1 ▸ ho)] at hf ⊢
          exact fb _ _ hf
        · by_cases h2 : e = EOPNOTSUPP
          · rw [c3 (h2 ▸ ho)] at hf ⊢
            exact fb _ _ hf
          · rw [c4 e ho h1 h2] at hf
            simp at hf
      | none =>
        rw [c1 ho] at hf ⊢
        obtain ⟨o1, o2, o3, o4, o5, o6⟩ := FS.Open_ok _ _ _ p.host ho
        have o1b : (sim.Open (resolve sim dir p.host) anonMode 0o600 p.host).1.1
            = (p.host.nextFd : Int) := o1
        simp only [o1b] at hf ⊢
        have hu : ((p.host.nextFd : Int) % 2 ^ 64).toNat = p.host.nextFd := by omega
        have hmod : p.host.nextFd % 2 ^ 64 = p.host.nextFd := by omega
        have hn63 : ¬ (2 ^ 63 ≤ p.host.nextFd) := by omega
        simp only [uintptr, uint64, hu, NewFile, hmod, FormatUint] at hf
        rw [if_neg hn63] at hf
        simp only [Option.some.injEq] at hf
        subst hf
        have hflags : ((anonMode ^^^ (anonMode &&& O_CLOEXEC)) ||| O_LARGEFILE) &&& O_TMPFILE
              = O_TMPFILE := by decide
        refine ⟨p.host.nextIno, _, p.host.inodes, ?_, o6, Or.inr ⟨trivial, hm0, ?_, hflags⟩⟩
        · show List.lookup p.host.nextFd (FS.Open _ _ _ p.host).2.fds = _
          rw [o4]; simp [List.lookup]
        · exact FS.source_head p.host.nextFd p.host.nextIno _ p.host.fds _ o4

/-- C5: on the reference filesystem, for both variants and whatever the memo:
when `TempFile` returns a handle `f`, the bytes `b` are written to it, and
`Link(f, path)` returns nil, then the file at `path` can be read and its content
is exactly `b`. -/
theorem link_preserves_content (v : Platform) (dir : String) (b : List UInt8)
    (path : String) (p : Proc FS) (f : File) (fs : FS)
    (hf : (v.TempFile sim dir p).1.f = some f)
    (hw : FS.write f.Fd b (v.TempFile sim dir p).2.host = some fs)
    (hl : (v.Link sim f path { (v.TempFile sim dir p).2 with host := fs }).1 = none) :
    FS.readFile path (v.Link sim f path { (v.TempFile sim dir p).2 with host := fs }).2.host
      = some b := by
  obtain ⟨ino, fl, rest, hfd, hin, hcase⟩ := sim_TempFile_ok v dir p f hf
  obtain ⟨w1, w2, w3⟩ := FS.write_spec f.fd b _ fs ino fl rest hfd hin hw
  rcases hcase with ⟨he, hfl⟩ | ⟨hv, hm, hs, hfl⟩
  · rw [Link_named_read v f path _ ino fl (by simpa [w3] using he) (by simpa [w2] using hfd)
      hfl hl]
    exact w1
  · subst hv
    have hs2 : fs.source f.name AT_SYMLINK_FOLLOW = some ino := by
      rw [FS.source_congr f.name AT_SYMLINK_FOLLOW _ fs w2 w3]; exact hs
    have := Link_anon_read f path { (linux.TempFile sim dir p).2 with host := fs } ino fl
      hm hs2 (by simpa [w2] using hfd) hfl hl
    exact this.trans w1

/-- The example of the package with the bytes of "example", run to the end on
the sample filesystem: on Linux through `linkat` (memo unset), on Linux through
the rename (memo set), on Linux through the flag query and the rename (memo
unset, a filesystem without O_TMPFILE), and on the other variant. -/
theorem link_preserves_content_witness :
    roundTrip Platform.linux "" [101, 120, 97, 109, 112, 108, 101] "/srv/data/link-example"
        (Proc.start FS.sample) = some [101, 120, 97, 109, 112, 108, 101] ∧
    roundTrip Platform.linux "" [101, 120, 97, 109, 112, 108, 101] "/srv/data/link-example"
        ⟨⟨true⟩, FS.sample, []⟩ = some [101, 120, 97, 109, 112, 108, 101] ∧
    roundTrip Platform.linux "" [101, 120, 97, 109, 112, 108, 101] "/srv/data/link-example"
        (Proc.start { FS.sample with dirs := [("/tmp", false), ("/srv/data", true)] })
      = some [101, 120, 97, 109, 112, 108, 101] ∧
    roundTrip Platform.other "" [101, 120, 97, 109, 112, 108, 101] "/srv/data/link-example"
        (Proc.start FS.sample) = some [101, 120, 97, 109, 112, 108, 101] :=
  ⟨link_preserves_content Platform.linux "" [101, 120, 97, 109, 112, 108, 101]
      "/srv/data/link-example" (Proc.start FS.sample) ⟨3, "/proc/self/fd/3"⟩
      { FS.sample with
        inodes := [(100, [101, 120, 97, 109, 112, 108, 101])]
        fds := [(3, 100, 0x418002)]
        nextIno := 101
        nextFd := 4 }
      (by decide) (by rfl) (by decide),
    link_preserves_content Platform.linux "" [101, 120, 97, 109, 112, 108, 101]
      "/srv/data/link-example" ⟨⟨true⟩, FS.sample, []⟩ ⟨3, "/tmp/42"⟩
      { FS.sample with
        inodes := [(100, [101, 120, 97, 109, 112, 108, 101])]
        entries := [("/tmp/42", 100)]
        fds := [(3, 100, 0x8002)]
        nextIno := 101
        nextFd := 4
        nextName := 43 }
      (by decide) (by rfl) (by decide),
    link_preserves_content Platform.linux "" [101, 120, 97, 109, 112, 108, 101]
      "/srv/data/link-example"
      (Proc.start { FS.sample with dirs := [("/tmp", false), ("/srv/data", true)] })
      ⟨3, "/tmp/42"⟩
      { FS.sample with
        dirs := [("/tmp", false), ("/srv/data", true)]
        inodes := [(100, [101, 120, 97, 109, 112, 108, 101])]
        entries := [("/tmp/42", 100)]
        fds := [(3, 100, 0x8002)]
        nextIno := 101
        nextFd := 4
        nextName := 43 }
      (by decide) (by rfl) (by decide),
    link_preserves_content Platform.other "" [101, 120, 97, 109, 112, 108, 101]
      "/srv/data/link-example" (Proc.start FS.sample) ⟨3, "/tmp/42"⟩
      { FS.sample with
        inodes := [(100, [101, 120, 97, 109, 112, 108, 101])]
        entries := [("/tmp/42", 100)]
        fds := [(3, 100, 0x8002)]
        nextIno := 101
        nextFd := 4
        nextName := 43 }
      (by decide) (by rfl) (by decide)⟩

theorem FS.Rename_error (oldpath newpath : String) (fs : FS)
    (hr : (FS.Rename oldpath newpath fs).1 ≠ none) : (FS.Rename oldpath newpath fs).2 = fs := by
  unfold FS.Rename at hr ⊢
  split
  · rfl
  · split_ifs <;> simp_all

theorem FS.Linkat_error (olddirfd : Int) (oldpath : String) (newdirfd : Int)
    (newpath : String) (flags : Nat) (fs : FS)
    (hr : (FS.Linkat olddirfd oldpath newdirfd newpath flags fs).1 ≠ none) :
    (FS.Linkat olddirfd oldpath newdirfd newpath flags fs).2 = fs := by
  unfold FS.Linkat at hr ⊢
  by_cases h0 : olddirfd ≠ AT_FDCWD ∨ newdirfd ≠ AT_FDCWD
  · rw [if_pos h0]
  · rw [if_neg h0] at hr ⊢
    cases hs : fs.source oldpath flags with
    | none => rfl
    | some ino =>
      simp only [hs] at hr ⊢
      by_cases h1 : (fs.dirs.lookup (dirOf newpath)).isNone = true
      · rw [if_pos h1]
      · rw [if_neg h1] at hr ⊢
        by_cases h2 : (fs.entries.lookup newpath).isSome = true ∨
            (fs.dirs.lookup newpath).isSome = true
        · rw [if_pos h2]
        · rw [if_neg h2] at hr
          exact absurd rfl hr

theorem FS.Syscall_state (trap a1 a2 a3 : Nat) (fs : FS) :
    (FS.Syscall trap a1 a2 a3 fs).2 = fs := by
  unfold FS.Syscall
  split_ifs
  · split <;> rfl
  · rfl

/-- On the reference filesystem a `Link` that returns an error has changed
nothing: no directory entry, no inode content, no descriptor. -/
theorem sim_Link_error (f : File) (newpath : String) (p : Proc FS)
    (hl : (linux.Link sim f newpath p).1 ≠ none) :
    (linux.Link sim f newpath p).2.host = p.host := by
  have hs : (sim.Syscall SYS_FCNTL f.Fd F_GETFL 0 p.host).2 = p.host :=
    FS.Syscall_state _ _ _ _ _
  unfold linux.Link at hl ⊢
  by_cases hm : p.missingTMPFILE.Load = true
  · simp only [hm, if_true] at hl ⊢
    exact FS.Rename_error f.Name newpath p.host hl
  · simp only [hm] at hl ⊢
    simp only [Bool.false_eq_true, if_false] at hl ⊢
    by_cases he : (callSyscall sim SYS_FCNTL f.Fd F_GETFL 0 p).1.2.2 ≠ 0
    · rw [if_pos he]; exact hs
    · rw [if_neg he] at hl ⊢
      by_cases hfl : (callSyscall sim SYS_FCNTL f.Fd F_GETFL 0 p).1.1 &&& O_TMPFILE ≠ O_TMPFILE
      · rw [if_pos hfl] at hl ⊢
        have := FS.Rename_error f.Name newpath (callSyscall sim SYS_FCNTL f.Fd F_GETFL 0 p).2.host hl
        exact this.trans hs
      · rw [if_neg hfl] at hl ⊢
        cases hk : (callLinkat sim AT_FDCWD f.Name AT_FDCWD newpath AT_SYMLINK_FOLLOW
            (callSyscall sim SYS_FCNTL f.Fd F_GETFL 0 p).2).1 with
        | none => simp [hk] at hl
        | some e =>
          simp only [hk]
          have := FS.Linkat_error AT_FDCWD f.Name AT_FDCWD newpath AT_SYMLINK_FOLLOW
            (callSyscall sim SYS_FCNTL f.Fd F_GETFL 0 p).2.host (by
              have hk2 : (FS.Linkat AT_FDCWD f.Name AT_FDCWD newpath AT_SYMLINK_FOLLOW
                (callSyscall sim SYS_FCNTL f.Fd F_GETFL 0 p).2.host).1 = some e := hk
              rw [hk2]; simp)
          exact this.trans hs

/-- C8: for a handle whose flags, queried with the memo unset, have all bits of
O_TMPFILE, a `linkat` that fails with `e` makes `Link` return the
`*os.LinkError` with Op "link", Old `f.Name()`, New `newpath` and Err `e`; the
host calls are the flag query and that one `linkat`, so no rename is made, and
the host is left as the failed `linkat` left it; the memo is unchanged.  On the
reference filesystem a `Link` that returns an error leaves every directory entry
and every content as it was. -/
theorem Link_linkat_error {σ : Type} (h : Host σ) (f : File) (newpath : String) (p : Proc σ)
    (e : Errno) (hm : p.missingTMPFILE.Load = false)
    (hq : (h.Syscall SYS_FCNTL f.Fd F_GETFL 0 p.host).1.2.2 = 0)
    (hfl : (h.Syscall SYS_FCNTL f.Fd F_GETFL 0 p.host).1.1 &&& O_TMPFILE = O_TMPFILE)
    (hl : (h.Linkat AT_FDCWD f.Name AT_FDCWD newpath AT_SYMLINK_FOLLOW
      (h.Syscall SYS_FCNTL f.Fd F_GETFL 0 p.host).2).1 = some e) :
    (linux.Link h f newpath p).1 =
      some (GoError.LinkError "link" f.Name newpath (GoError.errno e)) ∧
    (linux.Link h f newpath p).2.trace =
      p.trace ++ [Event.Syscall SYS_FCNTL f.Fd F_GETFL 0
        (h.Syscall SYS_FCNTL f.Fd F_GETFL 0 p.host).1.1
        (h.Syscall SYS_FCNTL f.Fd F_GETFL 0 p.host).1.2.1 0,
        Event.Linkat AT_FDCWD f.Name AT_FDCWD newpath AT_SYMLINK_FOLLOW (some e)] ∧
    (linux.Link h f newpath p).2.host =
      (h.Linkat AT_FDCWD f.Name AT_FDCWD newpath AT_SYMLINK_FOLLOW
        (h.Syscall SYS_FCNTL f.Fd F_GETFL 0 p.host).2).2 ∧
    (linux.Link h f newpath p).2.missingTMPFILE = p.missingTMPFILE ∧
    (∀ q : Proc FS, (linux.Link sim f newpath q).1 ≠ none →
      (linux.Link sim f newpath q).2.host = q.host) := by
  refine ⟨?_, ?_, ?_, ?_, fun q hq => sim_Link_error f newpath q hq⟩ <;>
  · unfold linux.Link
    simp only [hm, callSyscall, hq, hfl, callLinkat, hl]
    simp

theorem Link_linkat_error_witness :
    (linux.Link scripted ⟨5, "/proc/self/fd/5"⟩ "/_not_exists_/out"
      (Proc.start [Reply.Syscall 0x410002 0 0, Reply.Linkat (some ENOENT)])).1 =
      some (GoError.LinkError "link" "/proc/self/fd/5" "/_not_exists_/out"
        (GoError.errno ENOENT)) ∧
    (linux.Link scripted ⟨5, "/proc/self/fd/5"⟩ "/_not_exists_/out"
      (Proc.start [Reply.Syscall 0x410002 0 0, Reply.Linkat (some ENOENT)])).2.trace =
      [Event.Syscall SYS_FCNTL 5 F_GETFL 0 0x410002 0 0,
        Event.Linkat AT_FDCWD "/proc/self/fd/5" AT_FDCWD "/_not_exists_/out"
          AT_SYMLINK_FOLLOW (some ENOENT)] := by
  have w := Link_linkat_error scripted ⟨5, "/proc/self/fd/5"⟩ "/_not_exists_/out"
    (Proc.start [Reply.Syscall 0x410002 0 0, Reply.Linkat (some ENOENT)]) ENOENT
    (by decide) (by decide) (by decide) (by decide)
  exact ⟨w.1, w.2.1.trans (by decide)⟩

end tmpfile
